import Mathlib

/-!
Verification development for the Law-Agent orchestration engine.

Shallow embedding of the Python sources under `src/`: the memory subsystem
(`src/memory/global_memory.py`, `src/memory/session.py`,
`src/memory/memory_manager.py`, `src/memory/vector_db.py`), the agent core
(`src/schema.py`, `src/agent/base.py`, `src/agent/toolcall.py`,
`src/agent/specialized_agent.py`, `src/agent/core_agent.py`), the retry
helper (`src/utils/retry.py`, `src/models/llm.py`) and the flow controller
(`src/flow/legal_flow.py`).  External effects (LLM replies, embedding
encoding, vector-store queries, tool execution, status callbacks) are
modelled as oracle values of type `Except`; Python exceptions are modelled
by the `Except.error` branch.
-/

set_option autoImplicit false

namespace LawAgent

/-! ## Python-style helpers -/

/-- Boolean test that `pat` is an initial segment of `l`. -/
def startsWithList {α : Type} [DecidableEq α] : List α → List α → Bool
  | [], _ => true
  | _ :: _, [] => false
  | a :: as, b :: bs => a = b && startsWithList as bs

/-- Boolean test that `needle` occurs contiguously inside `hay`. -/
def containsSeq {α : Type} [DecidableEq α] (needle : List α) : List α → Bool
  | [] => startsWithList needle []
  | b :: bs => startsWithList needle (b :: bs) || containsSeq needle bs

/-- Python substring test `needle in hay`. -/
def pyContains (hay needle : String) : Bool :=
  containsSeq needle.toList hay.toList

/-- Python `str.lower()` (character-wise, ASCII-effective — identical to
`String.toLower` but kernel-reducible). -/
def pyLower (s : String) : String := String.mk (s.toList.map Char.toLower)

/-- Python `str.upper()` (character-wise, ASCII-effective). -/
def pyUpper (s : String) : String := String.mk (s.toList.map Char.toUpper)

/-- Python truthiness of an optional string (`None` and `""` are falsy). -/
def pyTruthyStr : Option String → Bool
  | none => false
  | some s => s ≠ ""

/-- Lookup in an insertion-ordered association list (Python `dict.get` /
`dict[k]`). -/
def alookup {α : Type} (l : List (String × α)) (k : String) : Option α :=
  match l with
  | [] => none
  | (k0, v0) :: rest => if k0 = k then some v0 else alookup rest k

/-- Update in an insertion-ordered association list (Python `dict[k] = v`):
an existing key keeps its position, a new key is appended at the end. -/
def aset {α : Type} (l : List (String × α)) (k : String) (v : α) :
    List (String × α) :=
  match l with
  | [] => [(k, v)]
  | (k0, v0) :: rest => if k0 = k then (k0, v) :: rest else (k0, v0) :: aset rest k v

/-- Accumulator loop of `pyDedup`. -/
def pyDedupGo (acc : List String) : List String → List String
  | [] => acc
  | x :: xs => pyDedupGo (if x ∈ acc then acc else acc ++ [x]) xs

/-- Deduplication keeping first occurrences.  Models Python
`list(set(xs))` up to the (unspecified) iteration order of the set. -/
def pyDedup (l : List String) : List String :=
  pyDedupGo [] l

/-! ## Global memory (`src/memory/global_memory.py`)

Entity values in the Python dict are dynamically typed; `PVal` covers the
shapes the code distinguishes: lists (of strings), dicts (modelled with
string payloads, which is all the merge logic ever inspects) and any other
scalar (`str`, numbers, `None`, ... — collapsed into `PVal.str` since the
code only assigns such values wholesale). -/

inductive PVal where
  | str : String → PVal
  | list : List String → PVal
  | dict : List (String × String) → PVal
  deriving DecidableEq, Repr

/-- Python truthiness of a `PVal`. -/
def PVal.truthy : PVal → Bool
  | .str s => s ≠ ""
  | .list l => l ≠ []
  | .dict d => d ≠ []

/-- `GlobalMemory.global_info`: `domain`, `intent`, the `entities` dict and
the (unused) `context` list. -/
structure GState where
  domain : Option String
  intent : Option String
  entities : List (String × PVal)
  contextSummaries : List String
  deriving DecidableEq, Repr

/-- Initial `global_info` built in `GlobalMemory.__init__` / `clear`. -/
def initialGState : GState :=
  { domain := none
    intent := none
    entities :=
      [ ("persons", .list []), ("amounts", .list []), ("dates", .list [])
      , ("locations", .list []), ("other", .dict []) ]
    contextSummaries := [] }

/-- Python `dict.update` on the model dicts (`current_entities[key].update(value)`). -/
def dictUpdate (cur : List (String × String)) : List (String × String) → List (String × String)
  | [] => cur
  | (k, v) :: rest => dictUpdate (aset cur k v) rest

/-- Merge of one incoming entity value into the current value for the same
key (`GlobalMemory.update`, the `if key in current_entities` branch).  The
`Bool` is the crash flag: Python raises `TypeError`/`AttributeError` when a
list is merged into a non-list or a dict into a non-dict, leaving the entry
unchanged. -/
def mergeValue (c v : PVal) : PVal × Bool :=
  match v, c with
  | .list vs, .list cs => (.list (pyDedup (cs ++ vs)), false)
  | .list _, _ => (c, true)
  | .dict vs, .dict cs => (.dict (dictUpdate cs vs), false)
  | .dict _, _ => (c, true)
  | .str s, _ => (.str s, false)

/-- One iteration of the `for key, value in entities.items()` loop of
`GlobalMemory.update`. -/
def mergeEntityItem (cur : List (String × PVal)) (k : String) (v : PVal) :
    List (String × PVal) × Bool :=
  match alookup cur k with
  | none => (cur ++ [(k, v)], false)
  | some c =>
    let r := mergeValue c v
    (if r.2 then cur else aset cur k r.1, r.2)

/-- The whole entity loop of `GlobalMemory.update`; stops at the first
raising iteration (the exception propagates, the earlier merges stay). -/
def updateEntities (cur : List (String × PVal)) :
    List (String × PVal) → List (String × PVal) × Bool
  | [] => (cur, false)
  | (k, v) :: rest =>
    let r := mergeEntityItem cur k v
    if r.2 then (r.1, true) else updateEntities r.1 rest

/-- The `if domain:` / `if intent:` part of `GlobalMemory.update`. -/
def applyDomIntent (g : GState) (domain intent : Option String) : GState :=
  let g1 := if pyTruthyStr domain then { g with domain := domain } else g
  if pyTruthyStr intent then { g1 with intent := intent } else g1

/-- `GlobalMemory.update(domain, intent, entities)` (`global_memory.py`
lines 54–86).  Returns the (possibly partially) updated state and the crash
flag. -/
def globalUpdate (g : GState) (domain intent : Option String)
    (entities : Option (List (String × PVal))) : GState × Bool :=
  let g2 := applyDomIntent g domain intent
  match entities with
  | none => (g2, false)
  | some items =>
    if items = [] then (g2, false)
    else
      let r := updateEntities g2.entities items
      ({ g2 with entities := r.1 }, r.2)

/-- Python `", ".join(v)` for the dynamic values appearing in
`GlobalMemory.to_string` (a str iterates its characters, a dict its keys). -/
def pyJoinComma : PVal → String
  | .list l => String.intercalate ", " l
  | .str s => String.intercalate ", " (s.toList.map (fun c => String.mk [c]))
  | .dict d => String.intercalate ", " (d.map (fun kv => kv.1))

/-- Truthiness of `entities.get(k)` inside `to_string`. -/
def entityTruthy (e : List (String × PVal)) (k : String) : Bool :=
  match alookup e k with
  | none => false
  | some v => v.truthy

/-- `GlobalMemory.to_string` (`global_memory.py` lines 121–144). -/
def globalToString (g : GState) : String :=
  let parts : List String :=
    (if pyTruthyStr g.domain then ["当前法律领域：" ++ g.domain.getD ""] else []) ++
    (if pyTruthyStr g.intent then ["当前法律意图：" ++ g.intent.getD ""] else []) ++
    (if entityTruthy g.entities "persons" then
      ["已知当事人：" ++ pyJoinComma ((alookup g.entities "persons").getD (.list []))] else []) ++
    (if entityTruthy g.entities "amounts" then
      ["已知金额：" ++ pyJoinComma ((alookup g.entities "amounts").getD (.list []))] else []) ++
    (if entityTruthy g.entities "dates" then
      ["已知时间：" ++ pyJoinComma ((alookup g.entities "dates").getD (.list []))] else []) ++
    (if entityTruthy g.entities "locations" then
      ["已知地点：" ++ pyJoinComma ((alookup g.entities "locations").getD (.list []))] else [])
  if parts = [] then "暂无全局信息" else String.intercalate "\n" parts

/-! ## Session memory (`src/memory/session.py`) -/

/-- One message of a `SessionMemory` (the metadata dict is carried but never
inspected by the functions under study; it is modelled as string pairs). -/
structure SessionMsg where
  role : String
  content : String
  metadata : List (String × String) := []
  deriving DecidableEq, Repr

/-- Python slice `l[-n:]` as used by `SessionMemory.get_recent_messages` and
`Memory.get_recent_messages` (both guard with `len > n`, so `n ≥ 1` in all
call sites; the `n = 0` Python corner case never occurs). -/
def takeLast {α : Type} (l : List α) (n : Nat) : List α :=
  if l.length > n then l.drop (l.length - n) else l

/-- `SessionMemory.add_message` on the bounded deque
(`deque(maxlen=session_memory_size)`). -/
def sessionAdd (maxlen : Nat) (mem : List SessionMsg) (m : SessionMsg) : List SessionMsg :=
  let mem' := mem ++ [m]
  if mem'.length > maxlen then mem'.drop (mem'.length - maxlen) else mem'

/-! ## Vector database (`src/memory/vector_db.py`)

The embedding provider and the vector-store backend are external; their
outcomes are oracle values.  `VectorDatabase.search` re-raises both failure
kinds as `RuntimeError`. -/

/-- One search hit as consumed by `get_full_context` (`content` plus the
Python `str(metadata)` rendering; the metadata dict of stored records is
always non-empty in practice, but both cases are modelled). -/
structure MemRec where
  content : String
  metadataRepr : String
  deriving DecidableEq, Repr

/-- `VectorDatabase.search` (`vector_db.py` lines 139–174): an encoding
failure or a store failure is wrapped in a `RuntimeError` and re-raised. -/
def vectorDbSearch (encodeRes : Except String Unit)
    (storeRes : Except String (List MemRec)) : Except String (List MemRec) :=
  match encodeRes with
  | .error e => .error ("Failed to encode query: " ++ e)
  | .ok _ =>
    match storeRes with
    | .error e => .error ("Failed to search vector store: " ++ e)
    | .ok r => .ok r

/-! ## Memory manager (`src/memory/memory_manager.py`) -/

/-- Section 1 of `get_full_context`: the session history block. -/
def historyParts (recent : List SessionMsg) : List String :=
  if recent ≠ [] then
    "=== 对话历史 ===" :: recent.map (fun m => m.role ++ ": " ++ m.content)
  else []

/-- The per-hit lines of section 2 (`[记忆{i}] {content}` plus the metadata
line when the metadata dict is truthy). -/
def memoryLines : Nat → List MemRec → List String
  | _, [] => []
  | i, m :: rest =>
    ("[记忆" ++ toString i ++ "] " ++ m.content)
      :: (if m.metadataRepr ≠ "" then ["  元数据: " ++ m.metadataRepr] else [])
      ++ memoryLines (i + 1) rest

/-- Section 2 of `get_full_context`: the retrieved long-term memories
(only assembled when the query is truthy and the search returned hits). -/
def memoryParts (query : String) (results : List MemRec) : List String :=
  if query ≠ "" ∧ results ≠ [] then "\n=== 相关历史记忆 ===" :: memoryLines 1 results
  else []

/-- Section 3 of `get_full_context`: guarded by
`global_info.get("domain") or global_info.get("entities")` — the entities
dict itself (not its contents) is tested for truthiness. -/
def factsParts (g : GState) : List String :=
  if pyTruthyStr g.domain ∨ g.entities ≠ [] then
    ["\n=== 当前案件已知事实 ===", globalToString g]
  else []

/-- `MemoryManager.get_full_context` (`memory_manager.py` lines 282–324),
success path: the three sections joined with newlines. -/
def getFullContext (recent : List SessionMsg) (query : String)
    (results : List MemRec) (g : GState) : String :=
  String.intercalate "\n"
    (historyParts recent ++ memoryParts query results ++ factsParts g)

/-- `MemoryManager.get_full_context` with the fallible search call: the
vector search runs only for a truthy query, and its `RuntimeError`
propagates (there is no try/except around `self.vector_db.search`). -/
def getFullContextE (recent : List SessionMsg) (query : String)
    (search : Except String (List MemRec)) (g : GState) : Except String String :=
  if query = "" then .ok (getFullContext recent query [] g)
  else
    match search with
    | .error e => .error e
    | .ok results => .ok (getFullContext recent query results g)

/-- One archived vector-store record as produced by `check_and_archive`
(`type="conversation", archived=True`). -/
structure ArchRecord where
  session_id : String
  content : String
  rtype : String
  archived : Bool
  deriving DecidableEq, Repr

/-- The pairing loop of `check_and_archive`
(`for i in range(0, len(old_messages), 2)` with the `i + 1 < len` guard and
the `user`/`assistant` role check): pairs are taken at even offsets only. -/
def pairTexts : List SessionMsg → List String
  | u :: a :: rest =>
    (if u.role = "user" ∧ a.role = "assistant" then
      ["User: " ++ u.content ++ "\nAssistant: " ++ a.content]
    else []) ++ pairTexts rest
  | _ => []

/-- The state touched by `check_and_archive`: one session plus the vector
store contents (`add_memory` appends; ids/timestamps are external and not
part of the claims). -/
structure MMState where
  session : List SessionMsg
  store : List ArchRecord
  deriving DecidableEq, Repr

/-- `MemoryManager.check_and_archive` (`memory_manager.py` lines 346–388),
success path of the `add_memory` calls.  `all_messages[:-threshold]` is `[]`
for `threshold = 0` in Python, hence the guard in `old`. -/
def checkAndArchive (threshold : Nat) (sid : String) (st : MMState) : MMState :=
  let allMsgs := st.session
  if allMsgs.length > threshold then
    let old :=
      if threshold = 0 then [] else allMsgs.take (allMsgs.length - threshold)
    if old ≠ [] then
      let texts := pairTexts old
      { st with
        store := st.store ++ texts.map (fun t =>
          { session_id := sid, content := t, rtype := "conversation", archived := true }) }
    else st
  else st

/-! ## Configuration (`src/config/config.py`)

Only the numeric fields the claims depend on; the key/url fields are
environment-sourced and external. -/

structure Config where
  llm_max_retries : Nat := 3
  embedding_max_retries : Nat := 3
  context_window_size : Nat := 10
  context_refine_threshold : Nat := 5
  session_memory_size : Nat := 50
  long_term_memory_top_k : Nat := 5
  deriving DecidableEq, Repr

/-- A `Config()` with all defaults. -/
def defaultConfig : Config := {}

/-! ## Retry helper (`src/utils/retry.py`) and the LLM client
(`src/models/llm.py`)

Python exception instances are modelled by `ErrKind`; the `exceptions`
tuple of the decorator by a list of exception classes, with `isInst`
playing `isinstance` (every kind is an instance of `Exception`). -/

inductive ErrKind where
  | timeoutK
  | connectionK
  | authK
  | schemaK
  | otherK
  deriving DecidableEq, Repr

inductive PyExcClass where
  | timeoutError
  | connectionError
  | excBase
  deriving DecidableEq, Repr

/-- Python `isinstance(e, cls)`; every exception kind derives `Exception`. -/
def isInst : ErrKind → PyExcClass → Bool
  | _, .excBase => true
  | .timeoutK, .timeoutError => true
  | .connectionK, .connectionError => true
  | _, _ => false

/-- Python `except exceptions as e` membership test for a tuple of classes. -/
def matchesAny (e : ErrKind) (cls : List PyExcClass) : Bool :=
  cls.any (isInst e)

/-- The attempt loop of `retry_with_backoff` (`retry.py` lines 27–53),
recursing on the number of retries left (`max_retries - attempt`; the
Python guard `attempt < max_retries` is exactly `retriesLeft > 0`).  `f` is
the wrapped call indexed by attempt number; the result carries the final
outcome, the list of delays slept, and the number of calls made.  On the
last attempt a failure re-raises whether or not it matched the tuple, so
both Python branches coincide there. -/
def retryGo {α : Type} (f : Nat → Except ErrKind α) (excs : List PyExcClass)
    (factor : ℚ) :
    Nat → Nat → ℚ → List ℚ → Except ErrKind α × List ℚ × Nat
  | 0, attempt, _delay, slept =>
    (match f attempt with
     | .ok a => (.ok a, slept, attempt + 1)
     | .error e => (.error e, slept, attempt + 1))
  | retriesLeft + 1, attempt, delay, slept =>
    (match f attempt with
     | .ok a => (.ok a, slept, attempt + 1)
     | .error e =>
       if matchesAny e excs then
         retryGo f excs factor retriesLeft (attempt + 1) (delay * factor) (slept ++ [delay])
       else (.error e, slept, attempt + 1))

/-- `retry_with_backoff(max_retries, initial_delay, backoff_factor,
exceptions)` applied to a call `f`. -/
def retryWithBackoff {α : Type} (maxRetries : Nat) (initialDelay factor : ℚ)
    (excs : List PyExcClass) (f : Nat → Except ErrKind α) :
    Except ErrKind α × List ℚ × Nat :=
  retryGo f excs factor maxRetries 0 initialDelay []

/-- `retry_on_timeout` (`retry.py` lines 56–77): `initial_delay=2.0`,
`backoff_factor=1.5`, `exceptions=(TimeoutError, ConnectionError, Exception)`. -/
def retryOnTimeout {α : Type} (maxRetries : Nat) (f : Nat → Except ErrKind α) :
    Except ErrKind α × List ℚ × Nat :=
  retryWithBackoff maxRetries 2 (3 / 2)
    [.timeoutError, .connectionError, .excBase] f

/-- `LLM.chat` / `LLM.chat_with_tools` (`llm.py` lines 146–219, 279–298):
the API call wrapped in `retry_on_timeout(max_retries=self.max_retries)`,
with the surviving exception re-raised as `TimeoutError` or `RuntimeError`. -/
def llmChat (cfg : Config) (f : Nat → Except ErrKind String) :
    Except String String × List ℚ × Nat :=
  let r := retryOnTimeout cfg.llm_max_retries f
  ( match r.1 with
    | .ok s => .ok s
    | .error .timeoutK => .error "TimeoutError"
    | .error _ => .error "RuntimeError"
  , r.2.1, r.2.2)

/-! ## Schema (`src/schema.py`) -/

inductive Role where
  | system
  | user
  | assistant
  | tool
  deriving DecidableEq, Repr

/-- `schema.ToolCall` content as carried inside assistant messages
(`{id, type="function", function:{name, arguments}}`). -/
structure ToolCall where
  id : String
  fname : String
  arguments : String
  deriving DecidableEq, Repr

/-- `schema.Message`.  Python `tool_calls=None` and `tool_calls=[]` are both
falsy and behave identically everywhere, so both are modelled by `[]`. -/
structure MsgM where
  role : Role
  content : String
  tool_calls : List ToolCall := []
  tool_call_id : String := ""
  name : String := ""
  deriving DecidableEq, Repr

def MsgM.userMsg (c : String) : MsgM := { role := .user, content := c }

def MsgM.systemMsg (c : String) : MsgM := { role := .system, content := c }

def MsgM.assistantMsg (c : String) (tcs : List ToolCall) : MsgM :=
  { role := .assistant, content := c, tool_calls := tcs }

def MsgM.toolMsg (c : String) (tid nm : String) : MsgM :=
  { role := .tool, content := c, tool_call_id := tid, name := nm }

/-- The OpenAI-format dict produced by `Message.to_dict`: a tool message
carries `tool_call_id` and no `tool_calls`; other roles carry `tool_calls`
only when truthy (absence is modelled by `[]`/`none`). -/
structure SentMsg where
  role : Role
  content : String
  tool_call_id : Option String := none
  tool_calls : List ToolCall := []
  deriving DecidableEq, Repr

/-- `Message.to_dict` (`schema.py` lines 91–110). -/
def MsgM.toDict (m : MsgM) : SentMsg :=
  if m.role = .tool then
    { role := .tool, content := m.content, tool_call_id := some m.tool_call_id }
  else
    { role := m.role, content := m.content, tool_calls := m.tool_calls }

/-- `Memory.get_recent_messages` (`schema.py` lines 125–127). -/
def getRecent (l : List MsgM) (n : Nat) : List MsgM :=
  if l.length > n then l.drop (l.length - n) else l

/-! ## ToolCall agent think-phase message list (`src/agent/toolcall.py`)

`think` (lines 92–147): optionally append `next_step_prompt` as a user
message, take the last 10 messages, convert to dicts, then drop tool
messages from the FRONT of the window (`while messages_dict[0].role ==
"tool": pop(0)`). -/

/-- The orphan-pruning loop at `toolcall.py` lines 124–126. -/
def dropLeadingTools : List SentMsg → List SentMsg
  | [] => []
  | m :: rest => if m.role = .tool then dropLeadingTools rest else m :: rest

/-- The message list handed to `chat_with_tools` by `ToolCallAgent.think`
(`next_step_prompt` is appended to memory first when truthy). -/
def thinkMessages (mem : List MsgM) (nextStepPrompt : String) : List SentMsg :=
  let mem' := if nextStepPrompt ≠ "" then mem ++ [MsgM.userMsg nextStepPrompt] else mem
  dropLeadingTools ((getRecent mem' 10).map MsgM.toDict)

/-- The forcing system message appended by `update_memory("system", ...)`
at `base.py` line 290 before the forced-final LLM call. -/
def forcedFinalSystemMsg : MsgM :=
  MsgM.systemMsg "已达到最大步数限制。请立即基于现有信息生成完整的最终回答，不要再调用任何工具。"

/-- The message list handed to the tool-free `chat` call on the
forced-final-answer path (`base.py` lines 290–301): the forcing system
message is appended to memory first (line 290), then the last 30 messages
of the resulting memory are taken (line 295), converted to dicts and sent
with NO orphan pruning. -/
def forcedFinalMessages (mem : List MsgM) : List SentMsg :=
  (getRecent (mem ++ [forcedFinalSystemMsg]) 30).map MsgM.toDict

/-- Accumulating orphan check: a tool-role dict is covered when its
`tool_call_id` is among the ids carried by some earlier assistant dict of
the same list. -/
def orphanFreeAux (ids : List String) : List SentMsg → Bool
  | [] => true
  | m :: rest =>
    if m.role = .tool then
      (match m.tool_call_id with
       | some t => ids.contains t
       | none => false) && orphanFreeAux ids rest
    else
      orphanFreeAux
        (ids ++ (if m.role = .assistant then m.tool_calls.map (fun tc => tc.id) else []))
        rest

/-- No tool-role message appears without a preceding assistant message of
the same list carrying a matching `tool_call_id`. -/
def orphanFree (l : List SentMsg) : Bool := orphanFreeAux [] l

/-- Well-formedness of an agent memory as built by the think/act loop: tool
messages are appended by `act` immediately after the assistant message that
carries their `tool_calls`, one per tool call and in order (`toolcall.py`
lines 183–197, 260–287); all other messages carry no tool calls. -/
inductive WFMem : List MsgM → Prop where
  | nil : WFMem []
  | plain (m : MsgM) (rest : List MsgM) :
      m.role ≠ .tool → m.tool_calls = [] → WFMem rest → WFMem (m :: rest)
  | block (c : String) (tcs : List ToolCall) (toolMsgs rest : List MsgM) :
      List.Forall₂ (fun (tm : MsgM) (tc : ToolCall) =>
        tm.role = .tool ∧ tm.tool_call_id = tc.id) toolMsgs tcs →
      WFMem rest →
      WFMem (MsgM.assistantMsg c tcs :: (toolMsgs ++ rest))

/-! ## Agent run state machine (`src/agent/base.py` lines 228–377)

The heart of the claim is the `state_context` context manager (lines
86–110): it records `previous_state`, runs the body (setting `ERROR` on an
exception before re-raising), and in its `finally` clause unconditionally
restores `previous_state` — which is `IDLE` after the entry normalization
at lines 248–251.  Step behaviour, the forced-final LLM call and the memory
scans are oracles. -/

inductive AgentState where
  | idle
  | running
  | finished
  | error
  | professional
  deriving DecidableEq, Repr

inductive StepOutcome where
  | stepOk (finish : Bool)
  | stepRaise (e : String)
  deriving DecidableEq, Repr

/-- Oracles for one `run` invocation: the per-step behaviour, the
forced-final `llm.chat` outcome, the tail scan for a long assistant message,
and the normal-path final-answer extraction. -/
structure RunEnv where
  steps : Nat → StepOutcome
  forcedChat : Except String String
  tailAnswer : Option String
  finalExtract : Option String
  joinedResults : String

/-- The `while current_step < max_steps and state != FINISHED` loop.
Returns the loop-exit state, the number of executed steps, and the
exception escaping a step, if any. -/
def runLoop (steps : Nat → StepOutcome) :
    Nat → Nat → AgentState → AgentState × Nat × Option String
  | 0, cs, st => (st, cs, none)
  | fuel + 1, cs, st =>
    if st = .finished then (st, cs, none)
    else
      match steps cs with
      | .stepRaise e => (st, cs + 1, some e)
      | .stepOk fin => runLoop steps fuel (cs + 1) (if fin then .finished else st)

/-- Outcome of `BaseAgent.run`: the state observable after `run` returns
(or raises) and the returned value / escaping exception. -/
structure RunOutcome where
  state : AgentState
  result : Except String String
  deriving Repr

/-- `BaseAgent.run`, with the state threading of `state_context` made
explicit.  Every branch ends by the `finally` clause of `state_context`
restoring `previousState`. -/
def runModel (s0 : AgentState) (maxSteps : Nat) (env : RunEnv) : RunOutcome :=
  -- lines 248-251: forced reset to IDLE when not IDLE on entry
  let s1 := if s0 ≠ .idle then .idle else s0
  -- state_context(RUNNING): previous_state := s1, state := RUNNING
  let previousState := s1
  let loopOut := runLoop env.steps maxSteps 0 .running
  match loopOut.2.2 with
  | some e =>
    -- a step raised: state_context sets ERROR, re-raises, finally restores
    let _afterExcept := AgentState.error
    { state := previousState, result := .error e }
  | none =>
    if loopOut.2.1 ≥ maxSteps then
      -- forced-final path (lines 284-338)
      match env.forcedChat with
      | .ok content =>
        if content ≠ "" then
          -- lines 316-322: state := IDLE, return content; finally restores
          { state := previousState, result := .ok content }
        else
          match env.tailAnswer with
          | some ans => { state := previousState, result := .ok ans }
          | none => { state := previousState, result := .ok ("抱歉，处理过程已达到最大步数限制（" ++ toString maxSteps ++ "步）。基于已获取的信息，建议您咨询专业律师获取更详细的法律意见。") }
      | .error _ =>
        -- lines 323-338: tail scan, else canned message; state := IDLE
        match env.tailAnswer with
        | some ans => { state := previousState, result := .ok ans }
        | none => { state := previousState, result := .ok ("抱歉，处理过程已达到最大步数限制（" ++ toString maxSteps ++ "步）。基于已获取的信息，建议您咨询专业律师获取更详细的法律意见。") }
    else
      -- normal completion (lines 340-371): final-answer extraction
      match env.finalExtract with
      | some ans => { state := previousState, result := .ok ans }
      | none => { state := previousState, result := .ok env.joinedResults }

/-! ## Legal domains and intents (`src/schema.py` lines 41–59) -/

inductive LegalDomain where
  | LABOR_LAW
  | FAMILY_LAW
  | CONTRACT_LAW
  | CORPORATE_LAW
  | CRIMINAL_LAW
  | PROCEDURAL_QUERY
  | NON_LEGAL
  deriving DecidableEq, Repr

/-- The `.value` string of each `LegalDomain` member. -/
def LegalDomain.val : LegalDomain → String
  | .LABOR_LAW => "Labor_Law"
  | .FAMILY_LAW => "Family_Law"
  | .CONTRACT_LAW => "Contract_Law"
  | .CORPORATE_LAW => "Corporate_Law"
  | .CRIMINAL_LAW => "Criminal_Law"
  | .PROCEDURAL_QUERY => "Procedural_Query"
  | .NON_LEGAL => "Non_Legal"

inductive LegalIntent where
  | QA_RETRIEVAL
  | CASE_ANALYSIS
  | DOC_DRAFTING
  | CALCULATION
  | REVIEW_CONTRACT
  | CLARIFICATION
  deriving DecidableEq, Repr

/-- The `.value` string of each `LegalIntent` member. -/
def LegalIntent.val : LegalIntent → String
  | .QA_RETRIEVAL => "QA_Retrieval"
  | .CASE_ANALYSIS => "Case_Analysis"
  | .DOC_DRAFTING => "Doc_Drafting"
  | .CALCULATION => "Calculation"
  | .REVIEW_CONTRACT => "Review_Contract"
  | .CLARIFICATION => "Clarification"

/-! ## Router (`src/agent/core_agent.py`) -/

/-- Python `LegalDomain[name]` member lookup by enum NAME. -/
def legalDomainFromName : String → Option LegalDomain
  | "LABOR_LAW" => some .LABOR_LAW
  | "FAMILY_LAW" => some .FAMILY_LAW
  | "CONTRACT_LAW" => some .CONTRACT_LAW
  | "CORPORATE_LAW" => some .CORPORATE_LAW
  | "CRIMINAL_LAW" => some .CRIMINAL_LAW
  | "PROCEDURAL_QUERY" => some .PROCEDURAL_QUERY
  | "NON_LEGAL" => some .NON_LEGAL
  | _ => none

/-- Python `LegalIntent[name]` member lookup by enum NAME. -/
def legalIntentFromName : String → Option LegalIntent
  | "QA_RETRIEVAL" => some .QA_RETRIEVAL
  | "CASE_ANALYSIS" => some .CASE_ANALYSIS
  | "DOC_DRAFTING" => some .DOC_DRAFTING
  | "CALCULATION" => some .CALCULATION
  | "REVIEW_CONTRACT" => some .REVIEW_CONTRACT
  | "CLARIFICATION" => some .CLARIFICATION
  | _ => none

/-- Any of the keywords occurs in the string. -/
def anyContained (s : String) (keywords : List String) : Bool :=
  keywords.any (fun k => pyContains s k)

/-- `CoreAgent._fuzzy_match_domain` (`core_agent.py` lines 301–318). -/
def fuzzyMatchDomain (domainStr : String) : LegalDomain :=
  let s := pyLower domainStr
  if anyContained s ["labor", "劳动", "工资", "裁员", "试用期", "加班"] then .LABOR_LAW
  else if anyContained s ["family", "婚姻", "家事", "离婚", "抚养", "继承"] then .FAMILY_LAW
  else if anyContained s ["contract", "合同", "违约"] then .CONTRACT_LAW
  else if anyContained s ["corporate", "公司", "股权", "治理"] then .CORPORATE_LAW
  else if anyContained s ["criminal", "刑事", "刑法", "犯罪", "量刑", "处罚", "抢劫", "盗窃", "诈骗", "嫌疑人"] then .CRIMINAL_LAW
  else if anyContained s ["procedural", "程序", "法院", "起诉", "诉讼", "诉讼费"] then .PROCEDURAL_QUERY
  else .NON_LEGAL

/-- The `legal_keywords` dict of `_keyword_based_domain_detection`, in
insertion (= iteration) order. -/
def keywordDomainLists : List (LegalDomain × List String) :=
  [ (.CRIMINAL_LAW, ["抢", "偷", "盗", "骗", "杀", "伤害", "处罚", "判刑", "量刑", "罪", "嫌疑人", "被告人"])
  , (.FAMILY_LAW, ["婚姻", "离婚", "结婚", "抚养", "赡养", "继承", "财产分割", "夫妻"])
  , (.LABOR_LAW, ["工资", "加班", "裁员", "解雇", "劳动合同", "试用期", "五险一金", "工伤"])
  , (.CONTRACT_LAW, ["合同", "协议", "违约", "履行", "解除", "签订"])
  , (.CORPORATE_LAW, ["公司", "企业", "股东", "股权", "董事会", "法人"])
  , (.PROCEDURAL_QUERY, ["法院", "起诉", "诉讼", "仲裁", "上诉", "执行", "管辖"]) ]

/-- The first domain whose keyword list fires on the lowered message. -/
def scanKeywordLists (msgLower : String) : List (LegalDomain × List String) → Option LegalDomain
  | [] => none
  | (d, ks) :: rest =>
    if anyContained msgLower ks then some d else scanKeywordLists msgLower rest

/-- `CoreAgent._keyword_based_domain_detection` (`core_agent.py` lines
320–357). -/
def keywordDomainDetection (userMessage : String) : LegalDomain :=
  let msgLower := pyLower userMessage
  match scanKeywordLists msgLower keywordDomainLists with
  | some d => d
  | none =>
    if pyContains userMessage "法" then
      if pyContains userMessage "婚姻" ∨ pyContains userMessage "离婚" then .FAMILY_LAW
      else if pyContains userMessage "刑" ∨ pyContains userMessage "犯罪" then .CRIMINAL_LAW
      else if pyContains userMessage "劳动" then .LABOR_LAW
      else if pyContains userMessage "合同" then .CONTRACT_LAW
      else if pyContains userMessage "公司" then .CORPORATE_LAW
      else .FAMILY_LAW
    else .NON_LEGAL

/-- The fallback chain of the outer `except` clause of
`identify_domain_and_intent` (lines 215–223). -/
def exceptFallbackDomain (userMessage : String) : LegalDomain :=
  let d := fuzzyMatchDomain userMessage
  if d = .NON_LEGAL then keywordDomainDetection userMessage else d

/-- The normalization `domain_str.upper().replace(" ", "_").replace("-", "_")`. -/
def upperNormalize (s : String) : String :=
  ((pyUpper s).replace " " "_").replace "-" "_"

/-- The domain-label conversion (lines 172–186): exact member lookup after
normalization, then fuzzy match on the label, then keyword scan of the raw
query. -/
def domainFromLabel (userMessage domainStr : String) : LegalDomain :=
  let up := upperNormalize domainStr
  if up = "NON_LEGAL" ∨ up = "NONLEGAL" then .NON_LEGAL
  else
    match legalDomainFromName up with
    | some d => d
    | none =>
      let d := fuzzyMatchDomain domainStr
      if d = .NON_LEGAL then keywordDomainDetection userMessage else d

/-- The hard legal-keyword list of the final NON_LEGAL recheck (line 198). -/
def legalIndicatorKeywords : List String :=
  ["法", "法律", "婚姻", "离婚", "合同", "劳动", "公司", "刑事", "犯罪", "法院", "诉讼"]

/-- `CoreAgent.identify_domain_and_intent` (`core_agent.py` lines 92–223).
`llmParse` is the combined outcome of the `chat` call, the code-fence /
regex extraction and `json.loads` (all external or stdlib): `.ok` carries
`result.get("domain")` and `result.get("intent")`; `.error` is any
exception inside the `try` block. -/
def identifyDomainAndIntent (userMessage : String)
    (llmParse : Except String (Option String × Option String)) :
    LegalDomain × LegalIntent :=
  match llmParse with
  | .error _ => (exceptFallbackDomain userMessage, .QA_RETRIEVAL)
  | .ok (dOpt, iOpt) =>
    let domainStr := dOpt.getD "Non_Legal"
    let intentStr := iOpt.getD "QA_Retrieval"
    let domain1 := domainFromLabel userMessage domainStr
    -- second check (lines 189-193): LLM said NON_LEGAL but keywords disagree
    let domain2 :=
      if domain1 = .NON_LEGAL then
        let kd := keywordDomainDetection userMessage
        if kd ≠ .NON_LEGAL then kd else domain1
      else domain1
    -- final check (lines 196-204): legal indicator present forces a domain
    let domain3 :=
      if domain2 = .NON_LEGAL ∧ anyContained userMessage legalIndicatorKeywords then
        let d2 := keywordDomainDetection userMessage
        if d2 = .NON_LEGAL then .FAMILY_LAW else d2
      else domain2
    let intent := (legalIntentFromName (pyUpper intentStr)).getD .QA_RETRIEVAL
    (domain3, intent)

/-- One labelled entity line of the `已知事实` section (`core_agent.py`
lines 278–297; the pattern is identical for the four labels).  The label
contains `：`, so `split("：")[1]` cannot underflow when the label occurs. -/
def parseEntityLine (sectionText label : String) : Option (List String) :=
  if pyContains sectionText label then
    match (sectionText.splitOn "\n").filter (fun l => pyContains l label) with
    | [] => none
    | line :: _ =>
      let valueStr := ((line.splitOn "：").getD 1 "").trim
      some (((valueStr.splitOn ",").map String.trim).filter (fun s => s ≠ ""))
  else none

/-- The entity-extraction part of `CoreAgent.route` (lines 272–297). -/
def routeEntities (ctx : String) : List (String × List String) :=
  if pyContains ctx "=== 当前案件已知事实 ===" then
    let sec := (ctx.splitOn "=== 当前案件已知事实 ===").getD 1 ""
    (match parseEntityLine sec "已知当事人：" with
     | some v => [("persons", v)] | none => []) ++
    (match parseEntityLine sec "已知金额：" with
     | some v => [("amounts", v)] | none => []) ++
    (match parseEntityLine sec "已知时间：" with
     | some v => [("dates", v)] | none => []) ++
    (match parseEntityLine sec "已知地点：" with
     | some v => [("locations", v)] | none => [])
  else []

/-- `CoreAgent.route` (lines 234–299).  The conversation-history parsing
feeds only the LLM prompt, which the `llmParse` oracle absorbs. -/
def route (userMessage ctx : String)
    (llmParse : Except String (Option String × Option String)) :
    LegalDomain × LegalIntent × List (String × List String) :=
  let di := identifyDomainAndIntent userMessage llmParse
  (di.1, di.2, routeEntities ctx)

/-! ## Critic loop (`src/agent/specialized_agent.py`) -/

/-- `SpecializedAgent._self_evaluate_result` (lines 472–545).  `evalCall`
is the combined outcome of the evaluation `chat` call, the regex extraction
and `json.loads`: `.ok` carries `eval_result.get("is_acceptable")` and
`eval_result.get("feedback")`; `.error` is any exception, answered by the
fail-open default at lines 543–545. -/
def selfEvaluateResult (evalCall : Except String (Option Bool × Option String)) :
    Bool × String :=
  match evalCall with
  | .error _ => (true, "评估失败，默认通过")
  | .ok (ab, fb) => (ab.getD true, fb.getD "可以返回")

/-- The Critic while-loop of `execute_task` (lines 252–371).  Per round:
`evals` is the evaluation oracle (indexed by evaluations performed so far),
`refine` the refined-search-query oracle (`None` covers both an exception
and an empty query), `search` the `web_search` call (its exception
propagates out of `execute_task`), `regen` the revision `chat` call (its
exception breaks the loop).  Returns the final result (or the escaping
exception) and the number of evaluation rounds performed. -/
def criticLoopGo (evals : Nat → Except String (Option Bool × Option String))
    (refine : Nat → Option String) (search : Nat → Except String String)
    (regen : Nat → Except String String) :
    Nat → Nat → String → Nat → Except String String × Nat
  | 0, _, result, evalsDone => (.ok result, evalsDone)
  | fuel + 1, criticRound, result, evalsDone =>
    if criticRound < 2 then
      let ev := selfEvaluateResult (evals evalsDone)
      if ev.1 then (.ok result, evalsDone + 1)
      else
        let criticRound' := criticRound + 1
        if criticRound' ≥ 2 then (.ok result, evalsDone + 1)
        else
          match refine criticRound' with
          | none => criticLoopGo evals refine search regen fuel criticRound' result (evalsDone + 1)
          | some _q =>
            match search criticRound' with
            | .error e => (.error e, evalsDone + 1)
            | .ok _res =>
              match regen criticRound' with
              | .error _ => (.ok result, evalsDone + 1)
              | .ok newResult =>
                criticLoopGo evals refine search regen fuel criticRound' newResult (evalsDone + 1)
    else (.ok result, evalsDone)

/-- The Critic loop started with `max_critic_rounds = 2`, `critic_round = 0`
on the result produced by the ReAct run. -/
def criticLoop (result0 : String)
    (evals : Nat → Except String (Option Bool × Option String))
    (refine : Nat → Option String) (search : Nat → Except String String)
    (regen : Nat → Except String String) : Except String String × Nat :=
  criticLoopGo evals refine search regen 2 0 result0 0

/-! ## Flow (`src/flow/legal_flow.py`) -/

/-- The user-visible apology built at `legal_flow.py` line 181. -/
def apologyText (e : String) : String :=
  "抱歉，系统在处理您的问题时遇到了技术问题：" ++ e ++ "。请稍后重试或咨询专业律师。"

/-- A status callback: `(stage, detail, state) → None`, possibly raising. -/
def Callback : Type := String → String → String → Except String Unit

/-- Oracles for one `LegalFlow.execute` request: the fallible pipeline
steps (the in-memory `add_message` / global-state updates cannot raise). -/
structure FlowOracles where
  getContext : Except String String
  routeRes : Except String (LegalDomain × LegalIntent × List (String × List String))
  runAgent : Except String String
  archive : Except String Unit

/-- One `if status_callback: status_callback(...)` site; the second
component records the `state` argument of the performed invocation. -/
def invokeCb (cb : Option Callback) (stage detail state : String) :
    Except String Unit × List String :=
  match cb with
  | none => (.ok (), [])
  | some f => (f stage detail state, [state])

/-- Result of `LegalFlow.execute`: `.error` means an exception escaped to
the caller; `cbStates` lists the `state` arguments of the callback
invocations that happened; `agentRan` records whether step 6 was reached. -/
structure FlowResult where
  result : Except String String
  cbStates : List String
  agentRan : Bool

/-- The `try` body of `LegalFlow.execute` (lines 115–173). -/
def flowBody (cb : Option Callback) (o : FlowOracles) : FlowResult :=
  -- Step 1: memory.add_message("user", ...) — in-memory, infallible
  let c1 := invokeCb cb "🔍 Phase 1: 意图识别" "正在分析用户问题，识别法律领域和意图..." "running"
  match c1.1 with
  | .error e => { result := .error e, cbStates := c1.2, agentRan := false }
  | .ok _ =>
    match o.getContext with
    | .error e => { result := .error e, cbStates := c1.2, agentRan := false }
    | .ok _ctx =>
      match o.routeRes with
      | .error e => { result := .error e, cbStates := c1.2, agentRan := false }
      | .ok die =>
        -- Step 4: global-state update / context refresh (in-memory)
        let c2 := invokeCb cb "⚡ Phase 2: 专业Agent执行"
          ("已识别领域: " ++ die.1.val ++ "，意图: " ++ die.2.1.val ++ "，正在唤醒专业Agent...")
          "running"
        match c2.1 with
        | .error e => { result := .error e, cbStates := c1.2 ++ c2.2, agentRan := false }
        | .ok _ =>
          match o.runAgent with
          | .error e => { result := .error e, cbStates := c1.2 ++ c2.2, agentRan := true }
          | .ok resp =>
            -- Step 7: memory.add_message("assistant", ...) — infallible
            match o.archive with
            | .error e => { result := .error e, cbStates := c1.2 ++ c2.2, agentRan := true }
            | .ok _ =>
              let c3 := invokeCb cb "✅ Phase 3: 完成" "回答生成完毕" "complete"
              match c3.1 with
              | .error e =>
                { result := .error e, cbStates := c1.2 ++ c2.2 ++ c3.2, agentRan := true }
              | .ok _ =>
                { result := .ok resp, cbStates := c1.2 ++ c2.2 ++ c3.2, agentRan := true }

/-- `LegalFlow.execute` (lines 94–181): the body under the catch-all
handler.  In the handler the callback is invoked directly — NOT through
`BaseAgent.update_status` — so an exception it raises there propagates to
the caller. -/
def flowExecute (cb : Option Callback) (o : FlowOracles) : FlowResult :=
  let b := flowBody cb o
  match b.result with
  | .ok r => { result := .ok r, cbStates := b.cbStates, agentRan := b.agentRan }
  | .error e =>
    let c4 := invokeCb cb "❌ 错误" "处理过程中发生错误" "error"
    match c4.1 with
    | .error e2 =>
      { result := .error e2, cbStates := b.cbStates ++ c4.2, agentRan := b.agentRan }
    | .ok _ =>
      { result := .ok (apologyText e), cbStates := b.cbStates ++ c4.2, agentRan := b.agentRan }

/-- `BaseAgent.update_status` (`base.py` lines 78–84): callback exceptions
ARE swallowed there. -/
def updateStatus (cb : Option Callback) (stage message state : String) :
    Except String Unit :=
  match cb with
  | none => .ok ()
  | some f =>
    match f stage message state with
    | .error _ => .ok ()
    | .ok _ => .ok ()

/-- The old-message slice archived by `check_and_archive`. -/
def archOld (thr : Nat) (st : MMState) : List SessionMsg :=
  st.session.take (st.session.length - thr)

/-- The records `check_and_archive` inserts for a given old-message slice. -/
def archRecords (sid : String) (old : List SessionMsg) : List ArchRecord :=
  (pairTexts old).map (fun t =>
    { session_id := sid, content := t, rtype := "conversation", archived := true })

/-- A session reachable through the Flow (a request whose agent raised adds
a user message with no assistant reply): the only adjacent user→assistant
pair of the old slice sits at an odd offset. -/
def c10BadSession : List SessionMsg :=
  [ { role := "user", content := "m0" }, { role := "user", content := "m1" },
    { role := "assistant", content := "m2" }, { role := "user", content := "m3" },
    { role := "assistant", content := "m4" }, { role := "user", content := "m5" },
    { role := "assistant", content := "m6" }, { role := "user", content := "m7" } ]

/-- Well-formedness of an entity value as it comes out of a Python dict:
list values carry no duplicates and dict values have distinct keys. -/
def WellTypedVal : PVal → Prop
  | .list l => l.Nodup
  | .dict d => (d.map Prod.fst).Nodup
  | .str _ => True

instance : (v : PVal) → Decidable (WellTypedVal v)
  | .str _ => isTrue trivial
  | .list l => inferInstanceAs (Decidable l.Nodup)
  | .dict d => inferInstanceAs (Decidable (d.map Prod.fst).Nodup)

/-- A global state whose `persons` list is non-empty. -/
def c8StateWithPerson : GState :=
  (globalUpdate initialGState none none (some [("persons", .list ["张三"])])).1

/-- The callback (when present) never raises, at any site. -/
def cbAllOk : Option Callback → Prop
  | none => True
  | some f => ∀ s d st, f s d st = Except.ok ()

/-- The callback (when present) does not raise on the error notification
issued inside the exception handler of `execute`. -/
def cbErrorSiteOk : Option Callback → Prop
  | none => True
  | some f => f "❌ 错误" "处理过程中发生错误" "error" = Except.ok ()

/-- A callback that raises only when notified of an error state. -/
def c1FailingCb : Callback :=
  fun _ _ st => if st = "error" then Except.error "callback crashed" else Except.ok ()

/-- Oracles for a request whose context assembly fails. -/
def c1BadOracles : FlowOracles :=
  { getContext := Except.error "db down"
    routeRes := Except.ok (.NON_LEGAL, .QA_RETRIEVAL, [])
    runAgent := Except.ok ""
    archive := Except.ok () }

/-- Oracles for a request whose vector search fails while everything else
would succeed. -/
def c3Oracles : FlowOracles :=
  { getContext := getFullContextE [] "我想离婚"
      (Except.error "Failed to search vector store: connection refused") initialGState
    routeRes := Except.ok (.FAMILY_LAW, .QA_RETRIEVAL, [])
    runAgent := Except.ok "正式法律意见"
    archive := Except.ok () }

/-- A memory reachable by the think/act loop: request, an assistant message
carrying one tool call, its tool result, then a long tail of messages —
31 messages, so that after the line-290 system-message append the last-30
window starts at the tool message, cutting off its assistant partner. -/
def c5Tc : ToolCall := { id := "call_1", fname := "web_search", arguments := "{}" }

def c5LongMem : List MsgM :=
  MsgM.userMsg "咨询" :: MsgM.assistantMsg "" [c5Tc] ::
    MsgM.toolMsg "搜索结果" "call_1" "web_search" ::
    List.replicate 28 (MsgM.userMsg "继续")

/-- Witness for C5 (amended) on a concrete post-tool memory. -/
def c5GoodMem : List MsgM :=
  [ MsgM.userMsg "劳动合同问题", MsgM.assistantMsg "" [c5Tc],
    MsgM.toolMsg "搜索结果" "call_1" "web_search",
    MsgM.assistantMsg "基于搜索结果的详细回答" [] ]

/-! ## Theorems -/



/-- The exception tuple of `retry_on_timeout` contains `Exception`, so every
exception kind matches it. -/
theorem matchesAny_retryTuple (k : ErrKind) :
    matchesAny k [.timeoutError, .connectionError, .excBase] = true := by
  cases k <;> rfl

/-- Behaviour of the retry loop when every attempt fails with the same
exception kind: all `maxRetries` retries happen and the sleeps follow the
geometric schedule. -/
theorem retryGo_allFail {α : Type} (f : Nat → Except ErrKind α)
    (excs : List PyExcClass) (factor : ℚ) (k : ErrKind)
    (hf : ∀ i, f i = .error k) (hm : matchesAny k excs = true) :
    ∀ (retriesLeft attempt : Nat) (delay : ℚ) (slept : List ℚ),
      retryGo f excs factor retriesLeft attempt delay slept =
        (.error k, slept ++ (List.range retriesLeft).map (fun j => delay * factor ^ j),
          attempt + retriesLeft + 1) := by
  intro retriesLeft
  induction retriesLeft with
  | zero =>
    intro attempt delay slept
    rw [retryGo, hf]
    simp
  | succ g ih =>
    intro attempt delay slept
    rw [retryGo, hf]
    simp only [hm, if_true]
    rw [ih (attempt + 1) (delay * factor) (slept ++ [delay])]
    simp only [Prod.mk.injEq]
    refine ⟨trivial, ?_, by omega⟩
    rw [List.range_succ_eq_map]
    simp only [List.map_cons, List.map_map, pow_zero, mul_one, List.append_assoc,
      List.singleton_append]
    congr 2
    apply List.map_congr_left
    intro j _
    simp only [Function.comp_apply, pow_succ]
    ring

/-- Claim C9 (amended): every LLM `chat` / `chat_with_tools` call retries a
failed request up to `max_retries` (default 3) times, with exponential
backoff starting at 2 seconds and factor 1.5, and it retries on EVERY
exception kind — timeout, transport, authentication and malformed-schema
errors alike — because the exception tuple of `retry_on_timeout` contains
`Exception`. -/
theorem c9_llm_retry_policy (cfg : Config) (f : Nat → Except ErrKind String)
    (k : ErrKind) (hf : ∀ i, f i = .error k) :
    (llmChat cfg f).2.2 = cfg.llm_max_retries + 1 ∧
    (llmChat cfg f).2.1 =
      (List.range cfg.llm_max_retries).map (fun j => (2 : ℚ) * (3 / 2) ^ j) ∧
    (llmChat cfg f).1 =
      .error (if k = .timeoutK then "TimeoutError" else "RuntimeError") ∧
    defaultConfig.llm_max_retries = 3 := by
  have h := retryGo_allFail f [.timeoutError, .connectionError, .excBase] (3 / 2) k hf
    (matchesAny_retryTuple k) cfg.llm_max_retries 0 2 []
  refine ⟨?_, ?_, ?_, rfl⟩
  · simp [llmChat, retryOnTimeout, retryWithBackoff, h]
  · simp [llmChat, retryOnTimeout, retryWithBackoff, h]
  · simp only [llmChat, retryOnTimeout, retryWithBackoff, h]
    cases k <;> simp

/-- Witness for C9: with the default configuration and a call that always
fails with an authentication error, four calls are made (one initial plus
three retries) and the sleeps are 2 s, 3 s, 4.5 s. -/
theorem c9_llm_retry_policy_witness :
    (llmChat defaultConfig (fun _ => Except.error ErrKind.authK)).2.2 = 4 ∧
    (llmChat defaultConfig (fun _ => Except.error ErrKind.authK)).2.1 =
      [2, 3, 9 / 2] := by
  have h := c9_llm_retry_policy defaultConfig (fun _ => Except.error ErrKind.authK)
    ErrKind.authK (fun _ => rfl)
  refine ⟨h.1, ?_⟩
  rw [h.2.1]
  show List.map (fun j => (2 : ℚ) * (3 / 2) ^ j) (List.range 3) = [2, 3, 9 / 2]
  norm_num [List.range_succ]

/-- Counterexample to C9 as stated: an authentication error IS retried
(4 calls instead of 1), and the backoff schedule is 2 s, 3 s, 4.5 s — not
1 s, 2 s, 4 s. -/
theorem c9_counterexample :
    (llmChat defaultConfig (fun _ => Except.error ErrKind.authK)).2.2 ≠ 1 ∧
    (llmChat defaultConfig (fun _ => Except.error ErrKind.authK)).2.1 ≠
      [1, 2, 4] := by
  constructor
  · decide
  · decide

/-- Claim C10 (amended): `check_and_archive` is not idempotent.  When the
session holds more than `threshold` messages, each call inserts one
`type="conversation"` record for every even-offset `(2i, 2i+1)` position
pair of the old-message slice whose roles are exactly `(user, assistant)` —
NOT for every adjacent user→assistant pair — while leaving the session
unchanged; two consecutive calls therefore insert the same records twice,
and the store grows strictly whenever at least one such aligned pair
exists. -/
theorem checkAndArchive_eq (thr : Nat) (sid : String) (st : MMState)
    (hthr : thr ≠ 0) (hlen : st.session.length > thr)
    (hold : st.session.take (st.session.length - thr) ≠ []) :
    checkAndArchive thr sid st =
      { st with store := st.store ++ archRecords sid (archOld thr st) } := by
  simp only [checkAndArchive]
  rw [if_pos hlen, if_neg hthr, if_pos hold]
  rfl

theorem c10_archive_not_idempotent (thr : Nat) (sid : String) (st : MMState)
    (hthr : thr ≠ 0) (hlen : st.session.length > thr) :
    (checkAndArchive thr sid st).session = st.session ∧
    (checkAndArchive thr sid st).store = st.store ++ archRecords sid (archOld thr st) ∧
    (checkAndArchive thr sid (checkAndArchive thr sid st)).store =
      st.store ++ archRecords sid (archOld thr st) ++ archRecords sid (archOld thr st) ∧
    (pairTexts (archOld thr st) ≠ [] →
      st.store.length < (checkAndArchive thr sid st).store.length) := by
  have holdlen : (archOld thr st).length = st.session.length - thr := by
    rw [archOld, List.length_take]
    omega
  have hold : st.session.take (st.session.length - thr) ≠ [] := by
    intro hcon
    have : (archOld thr st).length = 0 := by rw [archOld, hcon]; rfl
    omega
  have h1 := checkAndArchive_eq thr sid st hthr hlen hold
  have h2 := checkAndArchive_eq thr sid
    ({ st with store := st.store ++ archRecords sid (archOld thr st) } : MMState)
    hthr hlen hold
  refine ⟨by rw [h1], by rw [h1], ?_, ?_⟩
  · rw [h1, h2]
    simp [archOld, archRecords, List.append_assoc]
  · intro hne
    rw [h1]
    simp only [List.length_append]
    have : (archRecords sid (archOld thr st)).length ≠ 0 := by
      simp only [archRecords, List.length_map, ne_eq, List.length_eq_zero]
      exact hne
    omega

/-- Counterexample to C10 as stated: this session holds 8 > 5 messages and
its old slice `[user m0, user m1, assistant m2]` contains the adjacent
user→assistant pair `(m1, m2)`, yet `check_and_archive` inserts NOTHING
(the pairing loop only looks at even offsets), so the stored conversation
count does not increase. -/
theorem c10_counterexample :
    c10BadSession.length > defaultConfig.context_refine_threshold ∧
    ((archOld defaultConfig.context_refine_threshold
        { session := c10BadSession, store := [] }).getD 1
        { role := "", content := "" }).role = "user" ∧
    ((archOld defaultConfig.context_refine_threshold
        { session := c10BadSession, store := [] }).getD 2
        { role := "", content := "" }).role = "assistant" ∧
    checkAndArchive defaultConfig.context_refine_threshold "s"
      { session := c10BadSession, store := [] } =
      { session := c10BadSession, store := [] } := by
  refine ⟨by decide, by decide, by decide, by decide⟩

/-- Witness for C10 (amended), on a session whose old slice starts with an
even-aligned user→assistant pair. -/
theorem c10_witness :
    (checkAndArchive 5 "s"
        { session :=
            [ { role := "user", content := "q1" }, { role := "assistant", content := "a1" },
              { role := "user", content := "q2" }, { role := "assistant", content := "a2" },
              { role := "user", content := "q3" }, { role := "assistant", content := "a3" },
              { role := "user", content := "q4" }, { role := "assistant", content := "a4" } ],
          store := [] }).store.length > 0 := by
  have h := c10_archive_not_idempotent 5 "s"
    { session :=
        [ { role := "user", content := "q1" }, { role := "assistant", content := "a1" },
          { role := "user", content := "q2" }, { role := "assistant", content := "a2" },
          { role := "user", content := "q3" }, { role := "assistant", content := "a3" },
          { role := "user", content := "q4" }, { role := "assistant", content := "a4" } ],
      store := [] } (by decide) (by decide)
  have := h.2.2.2 (by decide)
  simpa using this

/-- Claim C4 (amended): `get_full_context` assembles its sections in the
fixed order 对话历史 → 相关历史记忆 → 当前案件已知事实; the history and
retrieved-memory sections are omitted exactly when their data is empty, but
the known-facts section is ALWAYS emitted (the guard tests the `entities`
dict itself, which always holds its five standard keys), so a
zero-length session with no retrievable memories and an empty global state
yields the facts header plus `暂无全局信息`, not the empty string. -/
theorem c4_context_sections (recent : List SessionMsg) (query : String)
    (results : List MemRec) (g : GState) (hg : g.entities ≠ []) :
    getFullContext recent query results g =
      String.intercalate "\n"
        (historyParts recent ++ memoryParts query results ++ factsParts g) ∧
    (historyParts recent = [] ↔ recent = []) ∧
    (memoryParts query results = [] ↔ (query = "" ∨ results = [])) ∧
    factsParts g = ["\n=== 当前案件已知事实 ===", globalToString g] ∧
    (recent = [] → query = "" →
      getFullContext recent query results g =
        "\n=== 当前案件已知事实 ===" ++ "\n" ++ globalToString g) := by
  have hf : factsParts g = ["\n=== 当前案件已知事实 ===", globalToString g] := by
    rw [factsParts, if_pos (Or.inr hg)]
  refine ⟨rfl, ?_, ?_, hf, ?_⟩
  · cases recent <;> simp [historyParts]
  · by_cases hq : query = ""
    · simp [memoryParts, hq]
    · cases results <;> simp [memoryParts, hq]
  · intro hr hq
    subst hr
    subst hq
    rw [getFullContext]
    simp only [historyParts, memoryParts, ne_eq, not_true_eq_false, false_and,
      if_false, ite_self, List.nil_append, hf]
    rfl

/-- Witness for C4: on the empty session, empty query and the initial
global state the result is exactly the facts section. -/
theorem c4_witness :
    getFullContext [] "" [] initialGState =
      "\n=== 当前案件已知事实 ===" ++ "\n" ++ globalToString initialGState :=
  (c4_context_sections [] "" [] initialGState (by decide)).2.2.2.2 rfl rfl

/-- Counterexample to C4 as stated: a zero-length session with no
retrievable memories and the fresh (empty) global state does NOT yield the
empty string — the known-facts section appears with its placeholder. -/
theorem c4_counterexample :
    getFullContext [] "" [] initialGState = "\n=== 当前案件已知事实 ===\n暂无全局信息" ∧
    getFullContext [] "" [] initialGState ≠ "" := by
  constructor
  · rfl
  · decide

/-! ### Lemmas about `pyDedup`, `alookup`/`aset` and `dictUpdate` -/

theorem pyDedupGo_append (l1 l2 acc : List String) :
    pyDedupGo acc (l1 ++ l2) = pyDedupGo (pyDedupGo acc l1) l2 := by
  induction l1 generalizing acc with
  | nil => rfl
  | cons x xs ih =>
    rw [List.cons_append, pyDedupGo, pyDedupGo, ih]

theorem mem_pyDedupGo (a : String) (l acc : List String) :
    a ∈ pyDedupGo acc l ↔ a ∈ acc ∨ a ∈ l := by
  induction l generalizing acc with
  | nil => simp [pyDedupGo]
  | cons x xs ih =>
    rw [pyDedupGo, ih]
    by_cases hx : x ∈ acc
    · simp only [if_pos hx, List.mem_cons]
      constructor
      · rintro (h | h)
        · exact Or.inl h
        · exact Or.inr (Or.inr h)
      · rintro (h | h | h)
        · exact Or.inl h
        · exact Or.inl (h ▸ hx)
        · exact Or.inr h
    · simp only [if_neg hx, List.mem_append, List.mem_singleton, List.mem_cons]
      tauto

theorem mem_pyDedup (a : String) (l : List String) : a ∈ pyDedup l ↔ a ∈ l := by
  rw [pyDedup, mem_pyDedupGo]
  simp

theorem pyDedupGo_nodup (l : List String) :
    ∀ acc : List String, acc.Nodup → (pyDedupGo acc l).Nodup := by
  induction l with
  | nil => intro acc h; exact h
  | cons x xs ih =>
    intro acc hacc
    rw [pyDedupGo]
    by_cases hx : x ∈ acc
    · rw [if_pos hx]; exact ih acc hacc
    · rw [if_neg hx]
      refine ih _ ?_
      rw [← List.concat_eq_append]
      exact hacc.concat hx

theorem pyDedup_nodup (l : List String) : (pyDedup l).Nodup :=
  pyDedupGo_nodup l [] List.nodup_nil

theorem pyDedupGo_skip (l : List String) :
    ∀ acc : List String, (∀ a ∈ l, a ∈ acc) → pyDedupGo acc l = acc := by
  induction l with
  | nil => intro acc _; rfl
  | cons x xs ih =>
    intro acc h
    rw [pyDedupGo, if_pos (h x (List.mem_cons_self x xs))]
    exact ih acc (fun a ha => h a (List.mem_cons_of_mem x ha))

theorem pyDedupGo_nodup_fresh (l : List String) :
    ∀ acc : List String, l.Nodup → (∀ a ∈ l, a ∉ acc) →
      pyDedupGo acc l = acc ++ l := by
  induction l with
  | nil => intro acc _ _; simp [pyDedupGo]
  | cons x xs ih =>
    intro acc hnd hfresh
    rw [pyDedupGo, if_neg (hfresh x (List.mem_cons_self x xs))]
    rw [ih (acc ++ [x]) (List.Nodup.of_cons hnd) ?_]
    · simp
    · intro a ha
      simp only [List.mem_append, List.mem_singleton]
      rintro (h | h)
      · exact hfresh a (List.mem_cons_of_mem x ha) h
      · exact (List.nodup_cons.mp hnd).1 (h ▸ ha)

theorem pyDedup_eq_self (l : List String) (h : l.Nodup) : pyDedup l = l := by
  rw [pyDedup, pyDedupGo_nodup_fresh l [] h (fun a _ => List.not_mem_nil a)]
  simp

theorem pyDedup_append_subset (d v : List String) (hd : d.Nodup)
    (hv : ∀ a ∈ v, a ∈ d) : pyDedup (d ++ v) = d := by
  rw [pyDedup, pyDedupGo_append]
  rw [show pyDedupGo [] d = pyDedup d from rfl, pyDedup_eq_self d hd]
  exact pyDedupGo_skip v d hv

theorem pyDedup_ne_nil (c : List String) (v : List String) (hc : c ≠ []) :
    pyDedup (c ++ v) ≠ [] := by
  intro h
  rcases List.exists_mem_of_ne_nil c hc with ⟨a, ha⟩
  have : a ∈ pyDedup (c ++ v) := (mem_pyDedup a _).mpr (List.mem_append_left v ha)
  rw [h] at this
  exact List.not_mem_nil a this

theorem alookup_aset_self {α : Type} (l : List (String × α)) (k : String) (v : α) :
    alookup (aset l k v) k = some v := by
  induction l with
  | nil => simp [aset, alookup]
  | cons p rest ih =>
    rw [aset]
    by_cases h : p.1 = k
    · rw [if_pos h, alookup, if_pos h]
    · rw [if_neg h, alookup, if_neg h]
      exact ih

theorem alookup_aset_ne {α : Type} (l : List (String × α)) (k k' : String) (v : α)
    (h : k' ≠ k) : alookup (aset l k v) k' = alookup l k' := by
  induction l with
  | nil =>
    rw [aset, alookup, alookup, if_neg (fun hc => h hc.symm)]
    rfl
  | cons p rest ih =>
    rw [aset]
    by_cases hp : p.1 = k
    · rw [if_pos hp, alookup, alookup]
      have : ¬ p.1 = k' := fun hc => h (hp ▸ hc ▸ rfl)
      rw [if_neg this, if_neg this]
    · rw [if_neg hp, alookup, alookup]
      by_cases hp' : p.1 = k'
      · rw [if_pos hp', if_pos hp']
      · rw [if_neg hp', if_neg hp']
        exact ih

theorem aset_of_lookup_eq {α : Type} (l : List (String × α)) (k : String) (v : α)
    (h : alookup l k = some v) : aset l k v = l := by
  induction l with
  | nil => simp [alookup] at h
  | cons p rest ih =>
    rw [alookup] at h
    rw [aset]
    by_cases hp : p.1 = k
    · rw [if_pos hp]
      rw [if_pos hp] at h
      cases h
      rfl
    · rw [if_neg hp]
      rw [if_neg hp] at h
      rw [ih h]

theorem alookup_append_right_of_none {α : Type} (l : List (String × α))
    (k : String) (v : α) (h : alookup l k = none) :
    alookup (l ++ [(k, v)]) k = some v := by
  induction l with
  | nil => simp [alookup]
  | cons p rest ih =>
    rw [alookup] at h
    rw [List.cons_append, alookup]
    by_cases hp : p.1 = k
    · rw [if_pos hp] at h; cases h
    · rw [if_neg hp]
      rw [if_neg hp] at h
      exact ih h

theorem alookup_append_singleton_ne {α : Type} (l : List (String × α))
    (k k' : String) (v : α) (h : k' ≠ k) :
    alookup (l ++ [(k, v)]) k' = alookup l k' := by
  induction l with
  | nil =>
    rw [List.nil_append, alookup, alookup, if_neg (fun hc => h hc.symm)]
    rfl
  | cons p rest ih =>
    rw [List.cons_append, alookup, alookup]
    by_cases hp : p.1 = k'
    · rw [if_pos hp, if_pos hp]
    · rw [if_neg hp, if_neg hp]
      exact ih

theorem dictUpdate_of_lookup (cur upd : List (String × String))
    (h : ∀ p ∈ upd, alookup cur p.1 = some p.2) : dictUpdate cur upd = cur := by
  induction upd with
  | nil => rfl
  | cons p rest ih =>
    rw [dictUpdate, aset_of_lookup_eq cur p.1 p.2 (h p (List.mem_cons_self p rest))]
    exact ih (fun q hq => h q (List.mem_cons_of_mem p hq))

theorem alookup_dictUpdate_not_mem (upd cur : List (String × String)) (k : String)
    (h : ∀ p ∈ upd, p.1 ≠ k) :
    alookup (dictUpdate cur upd) k = alookup cur k := by
  induction upd generalizing cur with
  | nil => rfl
  | cons p rest ih =>
    rw [dictUpdate, ih (aset cur p.1 p.2) (fun q hq => h q (List.mem_cons_of_mem p hq)),
      alookup_aset_ne]
    exact fun hc => h p (List.mem_cons_self p rest) hc.symm

theorem alookup_dictUpdate_mem (upd cur : List (String × String))
    (hnd : (upd.map Prod.fst).Nodup) :
    ∀ p ∈ upd, alookup (dictUpdate cur upd) p.1 = some p.2 := by
  induction upd generalizing cur with
  | nil => intro p hp; cases hp
  | cons q rest ih =>
    intro p hp
    rw [List.map_cons, List.nodup_cons] at hnd
    rcases List.mem_cons.mp hp with h | h
    · subst h
      rw [dictUpdate, alookup_dictUpdate_not_mem rest (aset cur p.1 p.2) p.1 ?_,
        alookup_aset_self]
      intro r hr hc
      exact hnd.1 (hc ▸ List.mem_map_of_mem Prod.fst hr)
    · rw [dictUpdate]
      exact ih (aset cur q.1 q.2) hnd.2 p h

theorem dictUpdate_idem (cur upd : List (String × String))
    (hnd : (upd.map Prod.fst).Nodup) :
    dictUpdate (dictUpdate cur upd) upd = dictUpdate cur upd :=
  dictUpdate_of_lookup _ upd (alookup_dictUpdate_mem upd cur hnd)

/-! ### Lemmas about the entity merge -/

/-- With distinct keys, every pair of an association list is found by
`alookup`. -/
theorem alookup_self_of_nodup (l : List (String × String))
    (hnd : (l.map Prod.fst).Nodup) : ∀ p ∈ l, alookup l p.1 = some p.2 := by
  induction l with
  | nil => intro p hp; cases hp
  | cons q rest ih =>
    intro p hp
    rw [List.map_cons, List.nodup_cons] at hnd
    rcases List.mem_cons.mp hp with h | h
    · subst h
      rw [alookup, if_pos rfl]
    · rw [alookup]
      by_cases hq : q.1 = p.1
      · exact absurd (hq ▸ List.mem_map_of_mem Prod.fst h) hnd.1
      · rw [if_neg hq]
        exact ih hnd.2 p h

/-- A value that has just been produced by a successful merge absorbs a
second merge of the same incoming value. -/
theorem mergeValue_stable (c v : PVal) (hv : WellTypedVal v)
    (hok : (mergeValue c v).2 = false) :
    mergeValue (mergeValue c v).1 v = ((mergeValue c v).1, false) := by
  cases v with
  | str s => cases c <;> rfl
  | list vs =>
    cases c with
    | list cs =>
      simp only [mergeValue]
      rw [pyDedup_append_subset (pyDedup (cs ++ vs)) vs (pyDedup_nodup _) ?_]
      intro a ha
      exact (mem_pyDedup a _).mpr (List.mem_append_right cs ha)
    | str s => simp [mergeValue] at hok
    | dict d => simp [mergeValue] at hok
  | dict vs =>
    cases c with
    | dict cs =>
      simp only [mergeValue]
      rw [dictUpdate_idem cs vs hv]
    | str s => simp [mergeValue] at hok
    | list l => simp [mergeValue] at hok

/-- A fresh value merged onto itself is unchanged. -/
theorem mergeValue_self (v : PVal) (hv : WellTypedVal v) :
    mergeValue v v = (v, false) := by
  cases v with
  | str s => rfl
  | list vs =>
    simp only [mergeValue]
    rw [pyDedup_append_subset vs vs hv (fun a ha => ha)]
  | dict vs =>
    simp only [mergeValue]
    rw [dictUpdate_of_lookup vs vs (alookup_self_of_nodup vs hv)]

/-- Merging one item does not disturb the other keys. -/
theorem mergeEntityItem_lookup_ne (cur : List (String × PVal)) (k k' : String)
    (v : PVal) (h : k' ≠ k) :
    alookup (mergeEntityItem cur k v).1 k' = alookup cur k' := by
  rw [mergeEntityItem]
  cases halk : alookup cur k with
  | none => exact alookup_append_singleton_ne cur k k' v h
  | some c =>
    simp only
    by_cases hc : (mergeValue c v).2 = true
    · rw [if_pos hc]
    · rw [if_neg hc]
      exact alookup_aset_ne cur k k' _ h

/-- A crashing merge leaves the entity dict unchanged (the exception is
raised before the assignment). -/
theorem mergeEntityItem_crash_eq (cur : List (String × PVal)) (k : String)
    (v : PVal) (h : (mergeEntityItem cur k v).2 = true) :
    (mergeEntityItem cur k v).1 = cur := by
  rw [mergeEntityItem] at *
  cases halk : alookup cur k with
  | none =>
    rw [halk] at h
    simp at h
  | some c =>
    rw [halk] at h
    simp only [] at h ⊢
    rw [if_pos h]

/-- After a successful merge, the key holds a value that absorbs a second
merge of the same incoming value. -/
theorem mergeEntityItem_ok_lookup (cur : List (String × PVal)) (k : String)
    (v : PVal) (hv : WellTypedVal v)
    (hok : (mergeEntityItem cur k v).2 = false) :
    ∃ w, alookup (mergeEntityItem cur k v).1 k = some w ∧
      mergeValue w v = (w, false) := by
  rw [mergeEntityItem] at *
  cases halk : alookup cur k with
  | none =>
    exact ⟨v, alookup_append_right_of_none cur k v halk, mergeValue_self v hv⟩
  | some c =>
    rw [halk] at hok
    simp only [] at hok ⊢
    rw [if_neg (by rw [hok]; exact Bool.false_ne_true)]
    exact ⟨(mergeValue c v).1, alookup_aset_self cur k _,
      mergeValue_stable c v hv hok⟩

/-- A key already carrying the absorbed value is left untouched, without a
crash. -/
theorem mergeEntityItem_stable (cur : List (String × PVal)) (k : String)
    (v w : PVal) (hl : alookup cur k = some w)
    (hm : mergeValue w v = (w, false)) :
    mergeEntityItem cur k v = (cur, false) := by
  rw [mergeEntityItem, hl]
  simp only [hm]
  rw [aset_of_lookup_eq cur k w hl]
  simp

/-- The entity loop does not disturb keys that no item mentions. -/
theorem updateEntities_lookup_ne (items : List (String × PVal)) (k : String)
    (h : ∀ p ∈ items, p.1 ≠ k) :
    ∀ cur, alookup (updateEntities cur items).1 k = alookup cur k := by
  induction items with
  | nil => intro cur; rfl
  | cons p rest ih =>
    intro cur
    obtain ⟨k0, v0⟩ := p
    have hk0 : k ≠ k0 := fun hc => h (k0, v0) (List.mem_cons_self _ _) hc.symm
    rw [updateEntities]
    by_cases hflag : (mergeEntityItem cur k0 v0).2 = true
    · rw [if_pos hflag]
      exact mergeEntityItem_lookup_ne cur k0 k v0 hk0
    · rw [if_neg hflag, ih (fun q hq => h q (List.mem_cons_of_mem _ hq))]
      exact mergeEntityItem_lookup_ne cur k0 k v0 hk0

/-- Idempotence of the entity loop on well-formed items (distinct keys,
duplicate-free lists, dicts with distinct keys), on non-crashing runs. -/
theorem updateEntities_idem (items : List (String × PVal))
    (hnd : (items.map Prod.fst).Nodup)
    (hwt : ∀ p ∈ items, WellTypedVal p.2) :
    ∀ cur cur1, updateEntities cur items = (cur1, false) →
      updateEntities cur1 items = (cur1, false) := by
  induction items with
  | nil =>
    intro cur cur1 h
    rw [updateEntities] at h
    cases h
    rfl
  | cons p rest ih =>
    intro cur cur1 h
    obtain ⟨k, v⟩ := p
    rw [List.map_cons, List.nodup_cons] at hnd
    rw [updateEntities] at h
    by_cases hflag : (mergeEntityItem cur k v).2 = true
    · rw [if_pos hflag] at h
      cases h
    · rw [if_neg hflag] at h
      have hok : (mergeEntityItem cur k v).2 = false := by
        exact Bool.not_eq_true _ ▸ hflag
      obtain ⟨w, hw, hmw⟩ :=
        mergeEntityItem_ok_lookup cur k v (hwt (k, v) (List.mem_cons_self _ _)) hok
      have hrest_ne : ∀ q ∈ rest, q.1 ≠ k := by
        intro q hq hc
        have hmem : q.1 ∈ List.map Prod.fst rest := List.mem_map_of_mem Prod.fst hq
        rw [hc] at hmem
        exact hnd.1 hmem
      have hk1 : alookup cur1 k = some w := by
        have hpres := updateEntities_lookup_ne rest k hrest_ne (mergeEntityItem cur k v).1
        rw [h] at hpres
        simpa using hpres.trans hw
      rw [updateEntities,
        mergeEntityItem_stable cur1 k v w hk1 hmw]
      simp only [Bool.false_eq_true, if_false]
      exact ih hnd.2 (fun q hq => hwt q (List.mem_cons_of_mem _ hq))
        (mergeEntityItem cur k v).1 cur1 h

/-- A non-empty entity list stays non-empty through the loop as long as
every item targeting its key is list-valued. -/
theorem updateEntities_list_preserved (items : List (String × PVal)) :
    ∀ (cur : List (String × PVal)) (K : String) (cs : List String),
      alookup cur K = some (.list cs) → cs ≠ [] →
      (∀ p ∈ items, p.1 = K → ∃ l, p.2 = PVal.list l) →
      ∃ l', alookup (updateEntities cur items).1 K = some (.list l') ∧ l' ≠ [] := by
  induction items with
  | nil => intro cur K cs h hne _; exact ⟨cs, h, hne⟩
  | cons p rest ih =>
    intro cur K cs h hne hlist
    obtain ⟨k, v⟩ := p
    rw [updateEntities]
    by_cases hflag : (mergeEntityItem cur k v).2 = true
    · rw [if_pos hflag]
      rw [mergeEntityItem_crash_eq cur k v hflag]
      exact ⟨cs, h, hne⟩
    · rw [if_neg hflag]
      by_cases hkK : k = K
      · subst hkK
        obtain ⟨l, hl⟩ := hlist (k, v) (List.mem_cons_self _ _) rfl
        simp only at hl
        subst hl
        have hmerge : (mergeEntityItem cur k (.list l)).1 =
            aset cur k (.list (pyDedup (cs ++ l))) := by
          rw [mergeEntityItem, h]
          rfl
        rw [hmerge]
        exact ih (aset cur k (.list (pyDedup (cs ++ l)))) k (pyDedup (cs ++ l))
          (alookup_aset_self cur k _) (pyDedup_ne_nil cs l hne)
          (fun q hq => hlist q (List.mem_cons_of_mem _ hq))
      · exact ih (mergeEntityItem cur k v).1 K cs
          (by rw [mergeEntityItem_lookup_ne cur k K v (fun hc => hkK hc.symm)]; exact h)
          hne (fun q hq => hlist q (List.mem_cons_of_mem _ hq))

theorem applyDomIntent_entities (g : GState) (d i : Option String) :
    (applyDomIntent g d i).entities = g.entities := by
  rw [applyDomIntent]
  by_cases hd : pyTruthyStr d = true <;> by_cases hi : pyTruthyStr i = true <;>
    simp [hd, hi]

theorem applyDomIntent_domain (g : GState) (d i : Option String) :
    (applyDomIntent g d i).domain = if pyTruthyStr d then d else g.domain := by
  rw [applyDomIntent]
  by_cases hd : pyTruthyStr d = true <;> by_cases hi : pyTruthyStr i = true <;>
    simp [hd, hi]

theorem applyDomIntent_intent (g : GState) (d i : Option String) :
    (applyDomIntent g d i).intent = if pyTruthyStr i then i else g.intent := by
  rw [applyDomIntent]
  by_cases hd : pyTruthyStr d = true <;> by_cases hi : pyTruthyStr i = true <;>
    simp [hd, hi]

theorem applyDomIntent_idem (g : GState) (d i : Option String) :
    applyDomIntent (applyDomIntent g d i) d i = applyDomIntent g d i := by
  rw [applyDomIntent, applyDomIntent]
  by_cases hd : pyTruthyStr d = true <;> by_cases hi : pyTruthyStr i = true <;>
    simp [hd, hi]

theorem applyDomIntent_ctx (g : GState) (d i : Option String) :
    (applyDomIntent g d i).contextSummaries = g.contextSummaries := by
  rw [applyDomIntent]
  by_cases hd : pyTruthyStr d = true <;> by_cases hi : pyTruthyStr i = true <;>
    simp [hd, hi]

/-- Claim C8 (amended): for entity dictionaries that are well-formed Python
dicts — distinct keys, duplicate-free list values, dict values with
distinct keys — and whose merge does not raise, `GlobalMemory.update` is
idempotent; it never replaces a truthy domain or intent with an empty one;
and list-valued updates never empty an existing non-empty entity list.  (A
non-list, non-dict value overwrites its entry wholesale, and a fresh key's
list is stored verbatim — the two behaviours the counterexample exhibits.) -/
theorem c8_global_update (g : GState) (domain intent : Option String)
    (items : List (String × PVal))
    (hnd : (items.map Prod.fst).Nodup)
    (hwt : ∀ p ∈ items, WellTypedVal p.2)
    (hok : (globalUpdate g domain intent (some items)).2 = false) :
    globalUpdate (globalUpdate g domain intent (some items)).1 domain intent
        (some items) =
      globalUpdate g domain intent (some items) ∧
    (pyTruthyStr g.domain = true →
      pyTruthyStr (globalUpdate g domain intent (some items)).1.domain = true) ∧
    (pyTruthyStr g.intent = true →
      pyTruthyStr (globalUpdate g domain intent (some items)).1.intent = true) ∧
    (∀ K cs, alookup g.entities K = some (.list cs) → cs ≠ [] →
      (∀ p ∈ items, p.1 = K → ∃ l, p.2 = PVal.list l) →
      ∃ l', alookup (globalUpdate g domain intent (some items)).1.entities K =
        some (.list l') ∧ l' ≠ []) := by
  obtain ⟨gd, gi, ge, gc⟩ := g
  by_cases hne : items = []
  · subst hne
    refine ⟨?_, ?_, ?_, ?_⟩
    · by_cases hd : pyTruthyStr domain = true <;>
        by_cases hi : pyTruthyStr intent = true <;>
        simp [globalUpdate, applyDomIntent, hd, hi]
    · intro hgd
      by_cases hd : pyTruthyStr domain = true <;>
        by_cases hi : pyTruthyStr intent = true <;>
        simp [globalUpdate, applyDomIntent, hd, hi, hgd]
    · intro hgi
      by_cases hd : pyTruthyStr domain = true <;>
        by_cases hi : pyTruthyStr intent = true <;>
        simp [globalUpdate, applyDomIntent, hd, hi, hgi]
    · intro K cs hK hcs _
      by_cases hd : pyTruthyStr domain = true <;>
        by_cases hi : pyTruthyStr intent = true <;>
        simp only [globalUpdate, applyDomIntent, hd, hi, if_true, if_false] <;>
        exact ⟨cs, hK, hcs⟩
  · have hok2 : (updateEntities ge items).2 = false := by
      simp only [globalUpdate, if_neg hne, applyDomIntent_entities] at hok
      exact hok
    have hidem := updateEntities_idem items hnd hwt ge
      (updateEntities ge items).1
      (Prod.ext_iff.mpr ⟨rfl, hok2⟩)
    refine ⟨?_, ?_, ?_, ?_⟩
    · by_cases hd : pyTruthyStr domain = true <;>
        by_cases hi : pyTruthyStr intent = true <;>
        simp [globalUpdate, if_neg hne, applyDomIntent, hd, hi, hidem, hok2]
    · intro hgd
      by_cases hd : pyTruthyStr domain = true <;>
        by_cases hi : pyTruthyStr intent = true <;>
        simp [globalUpdate, if_neg hne, applyDomIntent, hd, hi, hgd]
    · intro hgi
      by_cases hd : pyTruthyStr domain = true <;>
        by_cases hi : pyTruthyStr intent = true <;>
        simp [globalUpdate, if_neg hne, applyDomIntent, hd, hi, hgi]
    · intro K cs hK hcs hl
      have hp := updateEntities_list_preserved items ge K cs hK hcs hl
      by_cases hd : pyTruthyStr domain = true <;>
        by_cases hi : pyTruthyStr intent = true <;>
        simpa [globalUpdate, if_neg hne, applyDomIntent, hd, hi] using hp

/-- Counterexample to C8 as stated: (a) updating twice with a fresh entity
key whose list holds a duplicate leaves a different state than updating
once (the first call stores the list verbatim, the second dedups it); and
(b) a non-list, non-dict value — here the empty string — overwrites a
non-empty entity list with an empty value. -/
theorem c8_counterexample :
    globalUpdate
        (globalUpdate initialGState none none
          (some [("claims", .list ["x", "x"])])).1
        none none (some [("claims", .list ["x", "x"])]) ≠
      globalUpdate initialGState none none
        (some [("claims", .list ["x", "x"])]) ∧
    alookup c8StateWithPerson.entities "persons" = some (.list ["张三"]) ∧
    alookup (globalUpdate c8StateWithPerson none none
        (some [("persons", .str "")])).1.entities "persons" = some (.str "") ∧
    PVal.truthy (.str "") = false := by
  refine ⟨by decide, by decide, by decide, rfl⟩

/-- Witness for C8 (amended) at a concrete well-formed update. -/
theorem c8_witness :
    globalUpdate
        (globalUpdate c8StateWithPerson (some "Family_Law") none
          (some [("persons", .list ["李四"])])).1
        (some "Family_Law") none (some [("persons", .list ["李四"])]) =
      globalUpdate c8StateWithPerson (some "Family_Law") none
        (some [("persons", .list ["李四"])]) :=
  (c8_global_update c8StateWithPerson (some "Family_Law") none
    [("persons", .list ["李四"])] (by decide) (by decide) (by decide)).1

theorem criticLoopGo_bound (evals : Nat → Except String (Option Bool × Option String))
    (refine0 : Nat → Option String) (search : Nat → Except String String)
    (regen : Nat → Except String String) :
    ∀ (fuel round : Nat) (result : String) (evalsDone : Nat),
      (criticLoopGo evals refine0 search regen fuel round result evalsDone).2 ≤
        evalsDone + fuel := by
  intro fuel
  induction fuel with
  | zero => intro round result evalsDone; simp [criticLoopGo]
  | succ f ih =>
    intro round result evalsDone
    rw [criticLoopGo]
    by_cases hr : round < 2
    · rw [if_pos hr]
      by_cases h1 : (selfEvaluateResult (evals evalsDone)).1 = true
      · rw [if_pos h1]
        simp
      · rw [if_neg h1]
        by_cases h2 : round + 1 ≥ 2
        · rw [if_pos h2]
          simp
        · rw [if_neg h2]
          cases refine0 (round + 1) with
          | none => exact le_trans (ih (round + 1) result (evalsDone + 1)) (by omega)
          | some q =>
            cases search (round + 1) with
            | error e => simp
            | ok s =>
              cases regen (round + 1) with
              | error e => simp
              | ok n => exact le_trans (ih (round + 1) n (evalsDone + 1)) (by omega)
    · rw [if_neg hr]
      simp

/-- Claim C6 (amended): the Critic loop of `execute_task` performs at most
`max_critic_rounds = 2` evaluation rounds, and when the evaluation call
raises, `_self_evaluate_result` fails open with `is_acceptable=True` — but
with the fixed feedback string `"评估失败，默认通过"`, not the empty string —
and the current result is returned unchanged. -/
theorem c6_critic_loop (result0 : String)
    (evals : Nat → Except String (Option Bool × Option String))
    (refine0 : Nat → Option String) (search : Nat → Except String String)
    (regen : Nat → Except String String) :
    (criticLoop result0 evals refine0 search regen).2 ≤ 2 ∧
    (∀ e, evals 0 = .error e →
      criticLoop result0 evals refine0 search regen = (.ok result0, 1) ∧
      selfEvaluateResult (evals 0) = (true, "评估失败，默认通过")) := by
  constructor
  · exact criticLoopGo_bound evals refine0 search regen 2 0 result0 0
  · intro e he
    have hev : selfEvaluateResult (evals 0) = (true, "评估失败，默认通过") := by
      rw [he]
      rfl
    refine ⟨?_, hev⟩
    rw [criticLoop, criticLoopGo]
    rw [if_pos (by omega : (0 : Nat) < 2), if_pos (by rw [hev])]

/-- Witness for C6: a concrete run whose first Critic evaluation raises. -/
theorem c6_witness :
    criticLoop "草稿回答" (fun _ => Except.error "接口超时") (fun _ => none)
        (fun _ => Except.ok "") (fun _ => Except.ok "") = (.ok "草稿回答", 1) ∧
    (criticLoop "草稿回答" (fun _ => Except.error "接口超时") (fun _ => none)
        (fun _ => Except.ok "") (fun _ => Except.ok "")).2 ≤ 2 := by
  have h := c6_critic_loop "草稿回答" (fun _ => Except.error "接口超时")
    (fun _ => none) (fun _ => Except.ok "") (fun _ => Except.ok "")
  exact ⟨(h.2 "接口超时" rfl).1, h.1⟩

/-- Counterexample to C6 as stated: the fail-open default feedback is the
fixed string `"评估失败，默认通过"`, not the empty string. -/
theorem c6_counterexample :
    selfEvaluateResult (Except.error "接口超时") = (true, "评估失败，默认通过") ∧
    (selfEvaluateResult (Except.error "接口超时")).2 ≠ "" := by
  exact ⟨rfl, by decide⟩

/-- Claim C2: on every `run` invocation the entry state is normalized to
Idle (lines 248–251), the loop runs under `state_context(RUNNING)` whose
`finally` clause restores the pre-entry state, and therefore the state
observable after `run` returns — or raises, on the step-exception path — is
Idle on every path: normal completion, forced-final answer, tail-scan
fallback, canned-message fallback and exception.  Finished and Error are
never observable after `run`. -/
theorem c2_run_restores_idle (s0 : AgentState) (maxSteps : Nat) (env : RunEnv) :
    (if s0 ≠ AgentState.idle then AgentState.idle else s0) = AgentState.idle ∧
    (runModel s0 maxSteps env).state = AgentState.idle := by
  have hentry : (if s0 ≠ AgentState.idle then AgentState.idle else s0) =
      AgentState.idle := by
    by_cases h : s0 = AgentState.idle <;> simp [h]
  refine ⟨hentry, ?_⟩
  rw [runModel]
  simp only [hentry]
  split
  · rfl
  · split
    · split
      · split
        · rfl
        · split <;> rfl
      · split <;> rfl
    · split <;> rfl

/-- Claim C1 (amended): `LegalFlow.execute` catches every exception of the
pipeline body and translates it into the apology string after notifying the
callback with state `"error"` — PROVIDED the status callback itself does
not raise during that error notification; the handler calls the callback
directly rather than through `BaseAgent.update_status`, so a callback
exception raised there propagates to the caller (the counterexample), while
`update_status` itself always swallows callback exceptions. -/
theorem c1_flow_catches (cb : Option Callback) (o : FlowOracles)
    (h : cbErrorSiteOk cb) :
    (flowExecute cb o).result =
      (match (flowBody cb o).result with
       | .ok r => .ok r
       | .error e => .ok (apologyText e)) ∧
    (flowExecute cb o).result.isOk = true ∧
    (∀ f e, cb = some f → (flowBody cb o).result = .error e →
      (flowExecute cb o).cbStates = (flowBody cb o).cbStates ++ ["error"]) ∧
    (∀ f s d st, updateStatus (some f) s d st = Except.ok ()) := by
  have hmain : (flowExecute cb o).result =
      (match (flowBody cb o).result with
       | .ok r => .ok r
       | .error e => .ok (apologyText e)) ∧
      (∀ f e, cb = some f → (flowBody cb o).result = .error e →
        (flowExecute cb o).cbStates = (flowBody cb o).cbStates ++ ["error"]) := by
    rw [flowExecute]
    cases hb : (flowBody cb o).result with
    | ok r =>
      refine ⟨rfl, ?_⟩
      intro f e hf he
      cases he
    | error e =>
      cases cb with
      | none =>
        constructor
        · simp [invokeCb]
        · intro f e' hf _
          cases hf
      | some f =>
        constructor
        · simp only [invokeCb]
          rw [show f "❌ 错误" "处理过程中发生错误" "error" = Except.ok () from h]
        · intro f' e' _ _
          simp only [invokeCb]
          rw [show f "❌ 错误" "处理过程中发生错误" "error" = Except.ok () from h]
  refine ⟨hmain.1, ?_, hmain.2, ?_⟩
  · rw [hmain.1]
    cases (flowBody cb o).result <;> rfl
  · intro f s d st
    rw [updateStatus]
    cases f s d st <;> rfl

/-- Counterexample to C1 as stated: when the pipeline fails AND the status
callback raises on the error notification, `execute` raises to its caller —
the callback exception in the handler is NOT swallowed. -/
theorem c1_counterexample :
    (flowExecute (some c1FailingCb) c1BadOracles).result =
      Except.error "callback crashed" := rfl

/-- Witness for C1 (amended): with a well-behaved callback the same failing
pipeline yields the apology string. -/
theorem c1_witness :
    (flowExecute (some (fun _ _ _ => Except.ok ())) c1BadOracles).result =
      Except.ok (apologyText "db down") := by
  have h := c1_flow_catches (some (fun _ _ _ => Except.ok ())) c1BadOracles rfl
  rw [h.1]
  rfl

/-- Claim C3 (amended / corrected): when the vector search (or the
embedding encode inside it) fails, `get_full_context` does NOT degrade to
the session+global sections — the `RuntimeError` propagates out of it and
aborts the pipeline before routing; the Flow's catch-all then returns the
apology string, so no exception escapes, but the specialist never runs. -/
theorem c3_vector_failure_aborts (recent : List SessionMsg) (query e : String)
    (g : GState) (cb : Option Callback) (o : FlowOracles)
    (hq : query ≠ "")
    (ho : o.getContext = getFullContextE recent query (.error e) g)
    (hcb : cbAllOk cb) :
    getFullContextE recent query (.error e) g = .error e ∧
    (flowExecute cb o).result = .ok (apologyText e) ∧
    (flowExecute cb o).agentRan = false := by
  have hctx : getFullContextE recent query (.error e) g = .error e := by
    rw [getFullContextE, if_neg hq]
  have hbody : flowBody cb o =
      { result := .error e
        cbStates := (match cb with | none => [] | some _ => ["running"])
        agentRan := false } := by
    rw [flowBody]
    cases cb with
    | none =>
      simp only [invokeCb]
      rw [ho, hctx]
    | some f =>
      simp only [invokeCb]
      rw [hcb _ _ _, ho, hctx]
  rw [flowExecute, hbody]
  cases cb with
  | none => exact ⟨hctx, rfl, rfl⟩
  | some f =>
    simp only [invokeCb]
    rw [hcb _ _ _]
    exact ⟨hctx, rfl, rfl⟩

/-- Counterexample to C3 as stated: the failed search makes
`get_full_context` raise instead of degrading to session+global context,
and the enclosing request is answered by the apology with the specialist
never invoked. -/
theorem c3_counterexample :
    vectorDbSearch (Except.ok ()) (Except.error "connection refused") =
      Except.error "Failed to search vector store: connection refused" ∧
    getFullContextE [] "我想离婚"
        (Except.error "Failed to search vector store: connection refused")
        initialGState ≠
      Except.ok (getFullContext [] "我想离婚" [] initialGState) ∧
    (flowExecute none c3Oracles).result =
      Except.ok (apologyText "Failed to search vector store: connection refused") ∧
    (flowExecute none c3Oracles).agentRan = false := by
  refine ⟨rfl, ?_, rfl, rfl⟩
  intro hcon
  rw [show getFullContextE [] "我想离婚"
      (Except.error "Failed to search vector store: connection refused")
      initialGState =
      Except.error "Failed to search vector store: connection refused" from rfl] at hcon
  exact Except.noConfusion hcon

/-- Witness for C3 (amended) at the concrete failing request. -/
theorem c3_witness :
    (flowExecute none c3Oracles).result =
      Except.ok (apologyText "Failed to search vector store: connection refused") ∧
    (flowExecute none c3Oracles).agentRan = false := by
  have h := c3_vector_failure_aborts [] "我想离婚"
    "Failed to search vector store: connection refused" initialGState none c3Oracles
    (by decide) rfl trivial
  exact ⟨h.2.1, h.2.2⟩

/-- Claim C7: `CoreAgent.route` never propagates a JSON parse failure of
the LLM reply — on any exception inside the classification `try` block it
falls back to the deterministic keyword chain (fuzzy match on the message,
then keyword scan) with intent `QA_Retrieval`, and the ultimate fallback is
`Family_Law` exactly when the legal indicator character `法` occurs in the
query, `Non_Legal` otherwise.  Totality over the closed `LegalDomain` ×
`LegalIntent` sets is structural: every branch of the embedding returns
enum members, with no escaping error value. -/
theorem c7_route_parse_fallback (userMessage ctx e : String)
    (h1 : pyContains userMessage "婚姻" = false)
    (h2 : pyContains userMessage "离婚" = false)
    (h3 : pyContains userMessage "刑" = false)
    (h4 : pyContains userMessage "犯罪" = false)
    (h5 : pyContains userMessage "劳动" = false)
    (h6 : pyContains userMessage "合同" = false)
    (h7 : pyContains userMessage "公司" = false) :
    route userMessage ctx (.error e) =
      (exceptFallbackDomain userMessage, .QA_RETRIEVAL, routeEntities ctx) ∧
    (fuzzyMatchDomain userMessage = .NON_LEGAL →
      scanKeywordLists (pyLower userMessage) keywordDomainLists = none →
      (route userMessage ctx (.error e)).1 =
        (if pyContains userMessage "法" then LegalDomain.FAMILY_LAW
         else LegalDomain.NON_LEGAL)) := by
  refine ⟨rfl, ?_⟩
  intro hfz hscan
  show exceptFallbackDomain userMessage = _
  rw [exceptFallbackDomain, hfz, if_pos rfl, keywordDomainDetection, hscan]
  by_cases hfa : pyContains userMessage "法" = true
  · rw [if_pos hfa, if_pos hfa]
    rw [if_neg (by simp [h1, h2]), if_neg (by simp [h3, h4]),
      if_neg (by simp [h5]), if_neg (by simp [h6]), if_neg (by simp [h7])]
  · rw [if_neg hfa, if_neg hfa]

/-- Witness for C7: a parse failure on `"方法"` (contains `法`, no domain
keyword) yields `Family_Law`, and on `"今天天气真好"` yields `Non_Legal`. -/
theorem c7_witness :
    (route "方法" "" (Except.error "json decode failed")).1 =
      LegalDomain.FAMILY_LAW ∧
    (route "今天天气真好" "" (Except.error "json decode failed")).1 =
      LegalDomain.NON_LEGAL := by
  have ha := (c7_route_parse_fallback "方法" "" "json decode failed"
    (by decide) (by decide) (by decide) (by decide) (by decide) (by decide)
    (by decide)).2 (by decide) (by decide)
  have hb := (c7_route_parse_fallback "今天天气真好" "" "json decode failed"
    (by decide) (by decide) (by decide) (by decide) (by decide) (by decide)
    (by decide)).2 (by decide) (by decide)
  rw [ha, hb]
  exact ⟨by decide, by decide⟩

/-! ### Lemmas for the orphan-tool-message claim -/

theorem toDict_role (m : MsgM) : (MsgM.toDict m).role = m.role := by
  rw [MsgM.toDict]
  by_cases h : m.role = Role.tool
  · rw [if_pos h]
    exact h.symm
  · rw [if_neg h]

theorem toolMsgs_all_tool {tms : List MsgM} {tcs : List ToolCall}
    (h : List.Forall₂ (fun (tm : MsgM) (tc : ToolCall) =>
      tm.role = Role.tool ∧ tm.tool_call_id = tc.id) tms tcs) :
    ∀ tm ∈ tms, tm.role = Role.tool := by
  induction h with
  | nil => intro tm htm; cases htm
  | cons hp _ ih =>
    intro tm htm
    rcases List.mem_cons.mp htm with h | h
    · exact h ▸ hp.1
    · exact ih tm h

theorem WFMem_head_not_tool {l : List MsgM} (h : WFMem l) :
    l = [] ∨ ∃ m rest, l = m :: rest ∧ m.role ≠ Role.tool := by
  cases h with
  | nil => exact Or.inl rfl
  | plain m rest hm _ _ => exact Or.inr ⟨m, rest, rfl, hm⟩
  | block c tcs tms rest _ _ =>
    exact Or.inr ⟨MsgM.assistantMsg c tcs, tms ++ rest, rfl, by
      intro hcon
      exact Role.noConfusion hcon⟩

theorem WFMem_append_plain {l : List MsgM} (h : WFMem l) (m : MsgM)
    (hm : m.role ≠ Role.tool) (hm2 : m.tool_calls = []) : WFMem (l ++ [m]) := by
  induction h with
  | nil => exact WFMem.plain m [] hm hm2 WFMem.nil
  | plain m' rest hm' hm2' _ ih => exact WFMem.plain m' _ hm' hm2' ih
  | block c tcs tms rest hfa _ ih =>
    have heq : (MsgM.assistantMsg c tcs :: (tms ++ rest)) ++ [m] =
        MsgM.assistantMsg c tcs :: (tms ++ (rest ++ [m])) := by
      simp
    rw [heq]
    exact WFMem.block c tcs tms (rest ++ [m]) hfa ih

theorem WFMem_drop {l : List MsgM} (h : WFMem l) :
    ∀ k, ∃ ts w, l.drop k = ts ++ w ∧ (∀ m ∈ ts, m.role = Role.tool) ∧ WFMem w := by
  induction h with
  | nil =>
    intro k
    exact ⟨[], [], by simp, by simp, WFMem.nil⟩
  | plain m rest hm hm2 hrest ih =>
    intro k
    cases k with
    | zero => exact ⟨[], m :: rest, rfl, by simp, WFMem.plain m rest hm hm2 hrest⟩
    | succ k' =>
      rw [List.drop_succ_cons]
      exact ih k'
  | block c tcs tms rest hfa hrest ih =>
    intro k
    cases k with
    | zero =>
      exact ⟨[], MsgM.assistantMsg c tcs :: (tms ++ rest), rfl, by simp,
        WFMem.block c tcs tms rest hfa hrest⟩
    | succ k' =>
      rw [List.drop_succ_cons]
      obtain ⟨ts', w, hw, hts', hwf⟩ := ih (k' - tms.length)
      refine ⟨tms.drop k' ++ ts', w, ?_, ?_, hwf⟩
      · rw [List.drop_append_eq_append_drop, hw, List.append_assoc]
      · intro m hm
        rcases List.mem_append.mp hm with hmm | hmm
        · exact toolMsgs_all_tool hfa m (List.mem_of_mem_drop hmm)
        · exact hts' m hmm

theorem orphanFreeAux_toolblock (tms : List MsgM) (tcs : List ToolCall)
    (hfa : List.Forall₂ (fun (tm : MsgM) (tc : ToolCall) =>
      tm.role = Role.tool ∧ tm.tool_call_id = tc.id) tms tcs) :
    ∀ (ids : List String), (∀ tc ∈ tcs, ids.contains tc.id = true) →
    ∀ (z : List SentMsg),
      orphanFreeAux ids (tms.map MsgM.toDict ++ z) = orphanFreeAux ids z := by
  induction hfa with
  | nil => intro ids _ z; rfl
  | @cons tm tc tmrest tcrest hp htail ih =>
    intro ids hsub z
    rw [List.map_cons, List.cons_append, orphanFreeAux]
    have hrole : (MsgM.toDict tm).role = Role.tool := by
      rw [toDict_role]; exact hp.1
    rw [if_pos hrole]
    have hid : (MsgM.toDict tm).tool_call_id = some tm.tool_call_id := by
      rw [MsgM.toDict, if_pos hp.1]
    rw [hid]
    have hc : ids.contains tm.tool_call_id = true := by
      rw [hp.2]
      exact hsub tc (List.mem_cons_self tc tcrest)
    simp only [hc, Bool.true_and]
    exact ih ids (fun tc' htc' => hsub tc' (List.mem_cons_of_mem tc htc')) z

theorem WFMem_orphanFreeAux {l : List MsgM} (h : WFMem l) :
    ∀ ids, orphanFreeAux ids (l.map MsgM.toDict) = true := by
  induction h with
  | nil => intro ids; rfl
  | plain m rest hm hm2 _ ih =>
    intro ids
    rw [List.map_cons, orphanFreeAux]
    rw [if_neg (by rw [toDict_role]; exact hm)]
    exact ih _
  | block c tcs tms rest hfa _ ih =>
    intro ids
    rw [List.map_cons, List.map_append, orphanFreeAux]
    have hrole : (MsgM.toDict (MsgM.assistantMsg c tcs)).role = Role.assistant := rfl
    rw [if_neg (by rw [hrole]; exact fun hcon => Role.noConfusion hcon)]
    have htcs : (MsgM.toDict (MsgM.assistantMsg c tcs)).tool_calls = tcs := rfl
    rw [hrole, htcs, if_pos rfl]
    rw [orphanFreeAux_toolblock tms tcs hfa
      (ids ++ List.map (fun tc => tc.id) tcs) ?_ (rest.map MsgM.toDict)]
    · exact ih _
    · intro tc htc
      exact List.elem_eq_true_of_mem
        (List.mem_append_right ids (List.mem_map_of_mem (fun tc => tc.id) htc))

theorem dropLeadingTools_tools (ts : List SentMsg)
    (h : ∀ m ∈ ts, m.role = Role.tool) :
    ∀ z, dropLeadingTools (ts ++ z) = dropLeadingTools z := by
  induction ts with
  | nil => intro z; rfl
  | cons m rest ih =>
    intro z
    rw [List.cons_append, dropLeadingTools,
      if_pos (h m (List.mem_cons_self m rest))]
    exact ih (fun m' hm' => h m' (List.mem_cons_of_mem m hm')) z

theorem dropLeadingTools_of_head_not_tool (z : List SentMsg)
    (h : z = [] ∨ ∃ m rest, z = m :: rest ∧ m.role ≠ Role.tool) :
    dropLeadingTools z = z := by
  rcases h with h | ⟨m, rest, hz, hm⟩
  · rw [h]; rfl
  · rw [hz, dropLeadingTools, if_neg hm]

/-- Claim C5 (amended): the think-phase message list never contains an
orphan tool message — the window is a suffix of a block-structured memory,
so orphans can only sit at the front, where `think` drops them (lines
124–126); every remaining tool message follows its assistant message with a
matching `tool_call_id`.  The forced-final `chat` call, by contrast, sends
the raw last-30 window (taken after the line-290 system-message append)
with NO pruning, and the counterexample exhibits a well-formed memory
whose forced-final list starts with an orphan tool message. -/
theorem c5_think_no_orphans (mem : List MsgM) (prompt : String)
    (h : WFMem mem) : orphanFree (thinkMessages mem prompt) = true := by
  rw [thinkMessages]
  have hwf' : WFMem (if prompt ≠ "" then mem ++ [MsgM.userMsg prompt] else mem) := by
    split
    · exact WFMem_append_plain h _ (fun hcon => Role.noConfusion hcon) rfl
    · exact h
  set mem' := if prompt ≠ "" then mem ++ [MsgM.userMsg prompt] else mem with hmem'
  have hdrop : ∃ k, getRecent mem' 10 = mem'.drop k := by
    rw [getRecent]
    split
    · exact ⟨mem'.length - 10, rfl⟩
    · exact ⟨0, (List.drop_zero mem').symm⟩
  obtain ⟨k, hk⟩ := hdrop
  rw [hk]
  obtain ⟨ts, w, hdec, hts, hwfw⟩ := WFMem_drop hwf' k
  rw [hdec, List.map_append, orphanFree]
  rw [dropLeadingTools_tools (ts.map MsgM.toDict) ?_ (w.map MsgM.toDict)]
  · rw [dropLeadingTools_of_head_not_tool (w.map MsgM.toDict) ?_]
    · exact WFMem_orphanFreeAux hwfw []
    · rcases WFMem_head_not_tool hwfw with h0 | ⟨m, rest, hw, hm⟩
      · left; rw [h0]; rfl
      · right
        exact ⟨MsgM.toDict m, rest.map MsgM.toDict, by rw [hw]; rfl,
          by rw [toDict_role]; exact hm⟩
  · intro m hm
    obtain ⟨m0, hm0, hmm⟩ := List.mem_map.mp hm
    rw [← hmm, toDict_role]
    exact hts m0 hm0

theorem WFMem_replicate (n : Nat) (m : MsgM) (h1 : m.role ≠ Role.tool)
    (h2 : m.tool_calls = []) : WFMem (List.replicate n m) := by
  induction n with
  | zero => exact WFMem.nil
  | succ k ih =>
    rw [List.replicate_succ]
    exact WFMem.plain m _ h1 h2 ih

/-- Counterexample to C5 as stated: for this 31-message well-formed memory
the forced-final list — the raw last 30 messages taken after the forcing
system message is appended at line 290 — starts with a tool message whose
assistant partner was cut off by the window; an orphan reaches the LLM on
the forced-final path. -/
theorem c5_counterexample :
    WFMem c5LongMem ∧ orphanFree (forcedFinalMessages c5LongMem) = false := by
  constructor
  · refine WFMem.plain _ _ (by decide) rfl ?_
    show WFMem (MsgM.assistantMsg "" [c5Tc] ::
      ([MsgM.toolMsg "搜索结果" "call_1" "web_search"] ++
        List.replicate 28 (MsgM.userMsg "继续")))
    exact WFMem.block "" [c5Tc] [MsgM.toolMsg "搜索结果" "call_1" "web_search"]
      (List.replicate 28 (MsgM.userMsg "继续"))
      (List.Forall₂.cons ⟨rfl, rfl⟩ List.Forall₂.nil)
      (WFMem_replicate 28 _ (by decide) rfl)
  · decide

theorem c5_witness : orphanFree (thinkMessages c5GoodMem "") = true := by
  apply c5_think_no_orphans c5GoodMem ""
  refine WFMem.plain _ _ (by decide) rfl ?_
  show WFMem (MsgM.assistantMsg "" [c5Tc] ::
    ([MsgM.toolMsg "搜索结果" "call_1" "web_search"] ++
      [MsgM.assistantMsg "基于搜索结果的详细回答" []]))
  exact WFMem.block "" [c5Tc] [MsgM.toolMsg "搜索结果" "call_1" "web_search"]
    [MsgM.assistantMsg "基于搜索结果的详细回答" []]
    (List.Forall₂.cons ⟨rfl, rfl⟩ List.Forall₂.nil)
    (WFMem.plain _ [] (by decide) rfl WFMem.nil)

end LawAgent
